import Mathlib

/-!
# Verification of the invisiblewarbler generative-creature core

This file gives a shallow embedding of the algorithmic core of the
repository (the fragment-assembly module and the point-cloud skin
sampler) and proves or refutes the specification claims about it.

Modelling conventions, shared by the whole file:

* JavaScript numbers are idealised as exact rationals (for the sampler,
  where all arithmetic is rational) or exact reals (for the placement
  engine, whose `normalize` needs square roots).  Float rounding is not
  modelled.
* `Math.random()` is an input: a stream `rand : ℕ → ℚ` (resp. `ℝ`)
  consumed sequentially; a counter is threaded through the model in the
  same order as the source consumes draws.
* `THREE.Raycaster` is an external collaborator; its results are an
  input oracle indexed by probe number and ray direction (the source
  only uses `intersects[0]`, so the oracle returns that first hit).
* JavaScript `Infinity`-initialised running minima are modelled with
  `Option` (`none` = no candidate yet); the first finite candidate is
  always accepted, exactly as a finite number is always `< Infinity`.
* Where the source compares two `distanceTo` values (never using the
  value itself), the model compares squared distances; `Real.sqrt` is
  strictly monotone on nonnegatives, so the branch taken is identical.
* Out-of-range `Float32Array`/attribute reads (which yield `undefined`
  and then `NaN` data in JS) are modelled with `List.getD` defaults;
  they occur only for degenerate empty attributes and never influence
  sample counts, sizes or colours, which is all the claims mention.
* `area / totalArea` with `totalArea = 0` is `NaN` in JS, which makes
  `Math.floor(NaN) = NaN` and every `i < NaN` loop run zero times; in ℚ
  the same expression is `0`, and the loops likewise run zero times, so
  the observable emission count agrees.
-/

namespace Warbler

/-! ## Rational 3-vectors and colours (point-cloud sampler model) -/

structure Q3 where
  x : ℚ
  y : ℚ
  z : ℚ
deriving DecidableEq, Repr

instance : Add Q3 := ⟨fun a b => ⟨a.x + b.x, a.y + b.y, a.z + b.z⟩⟩

instance : Sub Q3 := ⟨fun a b => ⟨a.x - b.x, a.y - b.y, a.z - b.z⟩⟩

instance : Inhabited Q3 := ⟨⟨0, 0, 0⟩⟩

/-- `Vector3.multiplyScalar`. -/
def Q3.scale (c : ℚ) (v : Q3) : Q3 := ⟨c * v.x, c * v.y, c * v.z⟩

/-- Squared Euclidean distance; stands in for `Vector3.distanceTo` wherever
the source only compares two distances (see the file header). -/
def Q3.dist2 (a b : Q3) : ℚ :=
  (a.x - b.x) ^ 2 + (a.y - b.y) ^ 2 + (a.z - b.z) ^ 2

structure ColorQ where
  r : ℚ
  g : ℚ
  b : ℚ
deriving DecidableEq, Repr

def ColorQ.scale (c : ℚ) (col : ColorQ) : ColorQ := ⟨c * col.r, c * col.g, c * col.b⟩

def whiteQ : ColorQ := ⟨1, 1, 1⟩

/-- Componentwise minimum fold, as `Box3.expandByPoint` builds `box.min`. -/
def listMin3 (p : Q3) (l : List Q3) : Q3 :=
  l.foldl (fun acc q => ⟨min acc.x q.x, min acc.y q.y, min acc.z q.z⟩) p

/-- Componentwise maximum fold, as `Box3.expandByPoint` builds `box.max`. -/
def listMax3 (p : Q3) (l : List Q3) : Q3 :=
  l.foldl (fun acc q => ⟨max acc.x q.x, max acc.y q.y, max acc.z q.z⟩) p

/-- `Box3.setFromBufferAttribute` followed by `getSize`: `(0,0,0)` for an
empty box, `max - min` otherwise. -/
def attrSize (l : List Q3) : Q3 :=
  match l with
  | [] => ⟨0, 0, 0⟩
  | p :: rest => listMax3 p rest - listMin3 p rest

/-- `Box3.setFromBufferAttribute` followed by `getCenter`: `(0,0,0)` for an
empty box, `(min + max) / 2` otherwise. -/
def attrCenter (l : List Q3) : Q3 :=
  match l with
  | [] => ⟨0, 0, 0⟩
  | p :: rest => Q3.scale (1 / 2) (listMin3 p rest + listMax3 p rest)

/-! ## Sampler data model (`createPointCloudSkin`, src/unnamed/part_007) -/

/-- A renderable sub-mesh after `updateMatrixWorld` / `applyMatrix4`: the
position and normal attributes are stored already world-transformed, which
is exactly the data the sampler reads. `positions = none` models a geometry
lacking a position attribute. -/
structure MeshQ where
  positions : Option (List Q3)
  normals : Option (List Q3)
  materialColor : Option ColorQ
deriving DecidableEq, Repr

instance : Inhabited MeshQ := ⟨⟨none, none, none⟩⟩

/-- The object handed to `createPointCloudSkin`; `meshes` is the list the
`traverse` callback collects (every descendant with `isMesh`). -/
structure ObjQ where
  meshes : List MeshQ
  position : Q3
  rotation : Q3
  scale : Q3
deriving DecidableEq, Repr

/-- The sampler options with every field supplied (so none of the
randomised defaults draw from the stream). -/
structure SkinOptions where
  pointCount : ℕ
  pointSize : ℚ
  skinThickness : ℚ
  color : Option ColorQ
  opacity : ℚ
deriving DecidableEq, Repr

/-- One output point sample: position, colour, size, normal. -/
structure Sample where
  pos : Q3
  color : ColorQ
  size : ℚ
  normal : Q3
deriving DecidableEq, Repr

/-- The aggregated point-cloud geometry plus the inherited transform. -/
structure PointCloudQ where
  samples : List Sample
  position : Q3
  rotation : Q3
  scale : Q3
deriving DecidableEq, Repr

/-- First raycast intersection: `intersects[0]`. -/
structure Hit where
  dist : ℚ
  point : Q3
  normal : Q3
deriving DecidableEq, Repr

/-- Raycast oracle: probe number and direction index `0..5` to the first
intersection, if any. -/
def RayOracle : Type := ℕ → ℕ → Option Hit

/-- Sampler loop state: next random index, next probe number, samples
emitted so far (in buffer order). -/
structure SampleState where
  k : ℕ
  probe : ℕ
  samples : List Sample
deriving Repr

/-- Per-mesh data built by the first pass: the mesh, its world-space
positions, its bounding-box area proxy `x·y + y·z + x·z`. -/
structure MeshData where
  mesh : MeshQ
  positionsW : List Q3
  area : ℚ
deriving DecidableEq, Repr

instance : Inhabited MeshData := ⟨⟨default, [], 0⟩⟩

/-- First pass over the collected meshes: clone geometry, apply the world
matrix, and take `Box3.setFromBufferAttribute(geometry.attributes.position)`.
When a sub-mesh has no position attribute, `setFromBufferAttribute` is
applied to `undefined` and throws; there is no guard in the source. -/
def computeMeshAreas : List MeshQ → Except String (List MeshData)
  | [] => .ok []
  | m :: rest =>
    match m.positions with
    | none => .error "TypeError: setFromBufferAttribute of undefined"
    | some ps =>
      let size := attrSize ps
      let area := size.x * size.y + size.y * size.z + size.x * size.z
      match computeMeshAreas rest with
      | .error e => .error e
      | .ok tail => .ok (⟨m, ps, area⟩ :: tail)

/-- Resolution of a sample's base colour: the `color` option, else the
mesh material colour, else white — the same resolution the source applies
in the per-mesh loops and in the padding loop. -/
def meshColorOf (copt : Option ColorQ) (m : MeshQ) : ColorQ :=
  match copt with
  | some c => c
  | none =>
    match m.materialColor with
    | some c => c
    | none => whiteQ

/-- Vertex sub-sampling loop ("方法1"): stride through the vertex buffer,
offset along the local normal by a random fraction of `skinThickness`. -/
def vertexLoop (rand : ℕ → ℚ) (pc : ℕ) (ps thick : ℚ) (positions : List Q3)
    (normalsA : Option (List Q3)) (mc : ColorQ) (stp : ℕ) :
    ℕ → ℕ → SampleState → SampleState
  | _, 0, st => st
  | i, fuel + 1, st =>
    if st.samples.length < pc then
      let idx := min (i * stp) (positions.length - 1)
      let base := positions.getD idx default
      let kp : Q3 × ℕ :=
        match normalsA with
        | some ns =>
          let nv := ns.getD idx default
          (base + Q3.scale ((rand st.k - 1/2) * thick) nv, st.k + 1)
        | none => (base, st.k)
      let cv := 0.8 + rand kp.2 * 0.4
      let col := ColorQ.scale cv mc
      let sz := ps * (0.7 + rand (kp.2 + 1) * 0.6)
      let nk : Q3 × ℕ :=
        match normalsA with
        | some ns => (ns.getD idx default, kp.2 + 2)
        | none =>
          (⟨(rand (kp.2 + 2) - 1/2) * 2, |rand (kp.2 + 3) - 1/2| * 2,
            (rand (kp.2 + 4) - 1/2) * 2⟩, kp.2 + 5)
      vertexLoop rand pc ps thick positions normalsA mc stp (i + 1) fuel
        ⟨nk.2, st.probe, st.samples ++ [⟨kp.1, col, sz, nk.1⟩]⟩
    else st

/-- The six axis-aligned probe rays, folded exactly as the source's
`for (const dir of directions)` with its `dist < minDist && dist < maxSize`
keep condition (`minDist` starts at `Infinity`, modelled by `none`). -/
def probeSelect (oracle : RayOracle) (probe : ℕ) (maxSize : ℚ) : Option (ℚ × Q3 × Q3) :=
  (List.range 6).foldl
    (fun acc j =>
      match oracle probe j with
      | none => acc
      | some h =>
        match acc with
        | none => if h.dist < maxSize then some (h.dist, h.point, h.normal) else acc
        | some cur =>
          if h.dist < cur.1 ∧ h.dist < maxSize then some (h.dist, h.point, h.normal) else acc)
    none

/-- Fallback of the surface-projection sampler: nearest of the first 100
vertices (squared distances; see file header). `closestIdx` starts at 0 and
`closestDist` at `Infinity`. -/
def closestOfFirst100 (point : Q3) (positions : List Q3) : ℕ :=
  let n := min positions.length 100
  (List.range n).foldl
    (fun acc j =>
      match acc with
      | none => some (j, point.dist2 (positions.getD j default))
      | some cur =>
        let d := point.dist2 (positions.getD j default)
        if d < cur.2 then some (j, d) else acc)
    (none : Option (ℕ × ℚ))
  |>.map Prod.fst |>.getD 0

/-- Surface-projection sampling loop ("方法2"): a random point in the box
enlarged by 10 percent, probe rays on 6 axes, nearest kept hit, else the
nearest-vertex fallback; the `if (surfacePoint)` guard is always taken here
because the position attribute exists (it is truthy even when empty). -/
def surfaceLoop (rand : ℕ → ℚ) (oracle : RayOracle) (pc : ℕ) (ps thick : ℚ)
    (positions : List Q3) (normalsA : Option (List Q3)) (mc : ColorQ)
    (size center : Q3) (maxSize : ℚ) : ℕ → SampleState → SampleState
  | 0, st => st
  | fuel + 1, st =>
    if st.samples.length < pc then
      let point : Q3 :=
        ⟨center.x + (rand st.k - 1/2) * size.x * 1.1,
         center.y + (rand (st.k + 1) - 1/2) * size.y * 1.1,
         center.z + (rand (st.k + 2) - 1/2) * size.z * 1.1⟩
      let k3 := st.k + 3
      let spn : Q3 × Q3 :=
        match probeSelect oracle st.probe maxSize with
        | some sel => (sel.2.1, sel.2.2)
        | none =>
          let ci := closestOfFirst100 point positions
          let sp := positions.getD ci default
          let sn : Q3 :=
            match normalsA with
            | some ns => ns.getD ci default
            | none => ⟨0, 1, 0⟩
          (sp, sn)
      let sp := spn.1 + Q3.scale ((rand k3 - 1/2) * thick) spn.2
      let cv := 0.8 + rand (k3 + 1) * 0.4
      let col := ColorQ.scale cv mc
      let sz := ps * (0.7 + rand (k3 + 2) * 0.6)
      surfaceLoop rand oracle pc ps thick positions normalsA mc size center maxSize fuel
        ⟨k3 + 3, st.probe + 1, st.samples ++ [⟨sp, col, sz, spn.2⟩]⟩
    else st

/-- The per-mesh body of the generation `forEach`: split the mesh budget
30/70 between vertex sub-sampling and surface projection. -/
def meshStep (rand : ℕ → ℚ) (oracle : RayOracle) (opts : SkinOptions) (totalArea : ℚ)
    (md : MeshData) (st : SampleState) : SampleState :=
  let pfm := (Int.floor (md.area / totalArea * opts.pointCount)).toNat
  let mc := meshColorOf opts.color md.mesh
  let size := attrSize md.positionsW
  let center := attrCenter md.positionsW
  let maxSize := max size.x (max size.y size.z)
  let vsc := (Int.floor ((pfm : ℚ) * 0.3)).toNat
  let ssc := pfm - vsc
  let st1 :=
    if 0 < vsc then
      let stp := max 1 (md.positionsW.length / vsc)
      vertexLoop rand opts.pointCount opts.pointSize opts.skinThickness md.positionsW
        md.mesh.normals mc stp 0 vsc st
    else st
  surfaceLoop rand oracle opts.pointCount opts.pointSize opts.skinThickness
    md.positionsW md.mesh.normals mc size center maxSize ssc st1

/-- Per-mesh point generation over all meshes. -/
def meshLoop (rand : ℕ → ℚ) (oracle : RayOracle) (opts : SkinOptions) (totalArea : ℚ) :
    List MeshData → SampleState → SampleState
  | [], st => st
  | md :: rest, st =>
    meshLoop rand oracle opts totalArea rest (meshStep rand oracle opts totalArea md st)

/-- Padding loop: while the accumulated count is short of `pointCount`,
place a point at random inside a randomly chosen sub-mesh's bounding box,
coloured from that mesh, with an upward-biased random normal. -/
def padLoop (rand : ℕ → ℚ) (opts : SkinOptions) (mas : List MeshData) :
    ℕ → SampleState → SampleState
  | 0, st => st
  | fuel + 1, st =>
    let pick := (Int.floor (rand st.k * (mas.length : ℚ))).toNat
    let md := mas.getD pick default
    let size := attrSize md.positionsW
    let center := attrCenter md.positionsW
    let pos : Q3 :=
      ⟨center.x + (rand (st.k + 1) - 1/2) * size.x,
       center.y + (rand (st.k + 2) - 1/2) * size.y,
       center.z + (rand (st.k + 3) - 1/2) * size.z⟩
    let mc := meshColorOf opts.color md.mesh
    let cv := 0.8 + rand (st.k + 4) * 0.4
    let col := ColorQ.scale cv mc
    let sz := opts.pointSize * (0.7 + rand (st.k + 5) * 0.6)
    let ny := (rand (st.k + 7) - 1/2) * 2
    let nrm : Q3 := ⟨(rand (st.k + 6) - 1/2) * 2, |ny|, (rand (st.k + 8) - 1/2) * 2⟩
    padLoop rand opts mas fuel
      ⟨st.k + 9, st.probe, st.samples ++ [⟨pos, col, sz, nrm⟩]⟩

/-- The samples accumulated before the padding phase. -/
def prePadState (opts : SkinOptions) (rand : ℕ → ℚ) (oracle : RayOracle)
    (mas : List MeshData) : SampleState :=
  meshLoop rand oracle opts ((mas.map MeshData.area).sum) mas ⟨0, 0, []⟩

/-- `createPointCloudSkin` (src/unnamed/part_007): null when the object has
no renderable sub-mesh; otherwise area-weighted hybrid sampling, padding up
to `pointCount`, and a point cloud inheriting the object's transform.
A sub-mesh without a position attribute makes the first pass throw. -/
def createPointCloudSkin (obj : ObjQ) (opts : SkinOptions) (rand : ℕ → ℚ)
    (oracle : RayOracle) : Except String (Option PointCloudQ) :=
  if obj.meshes.length = 0 then .ok none
  else
    match computeMeshAreas obj.meshes with
    | .error e => .error e
    | .ok mas =>
      let st := prePadState opts rand oracle mas
      let st2 := padLoop rand opts mas (opts.pointCount - st.samples.length) st
      .ok (some ⟨st2.samples, obj.position, obj.rotation, obj.scale⟩)

/-! ## `geometryToPointCloud` (src/unnamed/part_007, lines 9-68) -/

structure GeomQ where
  positions : Option (List Q3)
  colors : Option (List ColorQ)
  normals : Option (List Q3)
deriving DecidableEq, Repr

structure PCGeom where
  positions : List Q3
  colors : List ColorQ
  sizes : List ℚ
deriving DecidableEq, Repr

/-- The vertex-sampling loop of `geometryToPointCloud`; the first `ℕ`
argument is the loop index, the second the next random index. -/
def g2pcLoop (rand : ℕ → ℚ) (ps : List Q3) (cols : Option (List ColorQ)) (stp : ℕ) :
    ℕ → ℕ → ℕ → PCGeom → PCGeom
  | _, _, 0, acc => acc
  | i, k, fuel + 1, acc =>
    let idx := min (i * stp) (ps.length - 1)
    let p := ps.getD idx default
    let ck : ColorQ × ℕ :=
      match cols with
      | some cl => (cl.getD idx whiteQ, k)
      | none =>
        (⟨0.4 + rand k * 0.2, 0.25 + rand (k + 1) * 0.15,
          0.15 + rand (k + 2) * 0.1⟩, k + 3)
    let sz := 0.8 + rand ck.2 * 0.4
    g2pcLoop rand ps cols stp (i + 1) (ck.2 + 1) fuel
      ⟨acc.positions ++ [p], acc.colors ++ [ck.1], acc.sizes ++ [sz]⟩

/-- `geometryToPointCloud`: warns and returns null when the geometry has no
position attribute, otherwise sub-samples the vertex buffer. -/
def geometryToPointCloud (g : GeomQ) (density : ℚ) (rand : ℕ → ℚ) : Option PCGeom :=
  match g.positions with
  | none => none
  | some ps =>
    let vc := ps.length
    let sampleCount := max 1 (Int.floor ((vc : ℚ) * density)).toNat
    let stp := max 1 (vc / sampleCount)
    some (g2pcLoop rand ps g.colors stp 0 0 sampleCount ⟨[], [], []⟩)

/-! ## Real 3-vectors (placement engine, src/unnamed/part_006)

The placement engine normalises arbitrary direction vectors, so its model
lives over `ℝ` with `Real.sqrt`; the definitions below are therefore
noncomputable and branch conditions are classically decidable. -/

noncomputable section

open Classical

structure V3 where
  x : ℝ
  y : ℝ
  z : ℝ

instance : Add V3 := ⟨fun a b => ⟨a.x + b.x, a.y + b.y, a.z + b.z⟩⟩

instance : Sub V3 := ⟨fun a b => ⟨a.x - b.x, a.y - b.y, a.z - b.z⟩⟩

instance : Inhabited V3 := ⟨⟨0, 0, 0⟩⟩

/-- `Vector3.multiplyScalar`. -/
def V3.scale (c : ℝ) (v : V3) : V3 := ⟨c * v.x, c * v.y, c * v.z⟩

/-- `Vector3.length`. -/
noncomputable def V3.len (v : V3) : ℝ := Real.sqrt (v.x ^ 2 + v.y ^ 2 + v.z ^ 2)

/-- `Vector3.normalize`: `divideScalar(length || 1)`, so the zero vector is
left unchanged. -/
noncomputable def V3.normalize (v : V3) : V3 :=
  let l := v.len
  let d := if l = 0 then 1 else l
  ⟨v.x / d, v.y / d, v.z / d⟩

/-- `Vector3.distanceTo`. -/
noncomputable def V3.dist (a b : V3) : ℝ := (a - b).len

/-- Squared distance; stands in for `distanceTo` wherever the source only
compares two distances (see the file header). -/
def V3.dist2 (a b : V3) : ℝ :=
  (a.x - b.x) ^ 2 + (a.y - b.y) ^ 2 + (a.z - b.z) ^ 2

structure BoxR where
  bmin : V3
  bmax : V3

/-- `Box3.setFromCenterAndSize`. -/
def BoxR.fromCenterAndSize (c s : V3) : BoxR :=
  ⟨c - V3.scale (1 / 2) s, c + V3.scale (1 / 2) s⟩

/-- `Box3.getSize`. -/
def BoxR.getSize (b : BoxR) : V3 := b.bmax - b.bmin

/-- `Box3.getCenter`. -/
def BoxR.getCenter (b : BoxR) : V3 := V3.scale (1 / 2) (b.bmin + b.bmax)

/-- `Box3.intersectsBox`: closed-interval overlap on all three axes. -/
def BoxR.intersects (a b : BoxR) : Prop :=
  a.bmin.x ≤ b.bmax.x ∧ b.bmin.x ≤ a.bmax.x ∧
  a.bmin.y ≤ b.bmax.y ∧ b.bmin.y ≤ a.bmax.y ∧
  a.bmin.z ≤ b.bmax.z ∧ b.bmin.z ≤ a.bmax.z

/-! ## Fragments and placed parts -/

/-- A catalog mesh fragment. `Box3.setFromObject` of the (possibly rotated)
fragment at position zero is summarised by the `geomCenter`/`geomSize`
functions of the Euler rotation — the only geometry the placement engine
reads; position then translates the box. `scale` is the transform scale the
`clone()` copies and nothing in the module ever writes. -/
structure Fragment where
  geomCenter : V3 → V3
  geomSize : V3 → V3
  scale : V3

instance : Inhabited Fragment := ⟨⟨fun _ => default, fun _ => default, default⟩⟩

/-- An entry of the `fragments` argument of `synthesizeCreature`:
`{partType, fragment}`. -/
structure FragEntry where
  partType : ℕ
  fragment : Fragment

instance : Inhabited FragEntry := ⟨⟨0, default⟩⟩

/-- The anatomical role under which the assembly loop placed a clone
(metadata naming the placing code path; the source keeps no tag). -/
inductive Role where
  | torso
  | head
  | belly
  | wing
  | tail
  | foot
deriving DecidableEq

/-- A placed clone: fragment geometry, placing role, current position and
rotation, and the scale copied by `clone()` (never written afterwards). -/
structure PlacedPart where
  frag : Fragment
  role : Role
  pos : V3
  rot : V3
  scaleV : V3

instance : Inhabited PlacedPart := ⟨⟨default, .torso, default, default, default⟩⟩

def mkPlaced (f : Fragment) (r : Role) (p rot : V3) : PlacedPart :=
  ⟨f, r, p, rot, f.scale⟩

/-- `Box3().setFromObject(obj)`: the world box of the rotated geometry,
translated by the object's position. -/
def objBox (p : PlacedPart) : BoxR :=
  BoxR.fromCenterAndSize (p.frag.geomCenter p.rot + p.pos) (p.frag.geomSize p.rot)

open Classical in
/-- `checkCollision` (part_006 line 505): shrink both world boxes about
their centers by `collisionScale`, then test intersection. -/
def checkCollision (o1 o2 : PlacedPart) (collisionScale : ℝ) : Prop :=
  let box1 := objBox o1
  let box2 := objBox o2
  let s1 := BoxR.fromCenterAndSize box1.getCenter (V3.scale collisionScale box1.getSize)
  let s2 := BoxR.fromCenterAndSize box2.getCenter (V3.scale collisionScale box2.getSize)
  s1.intersects s2

/-- Projection of half a box size onto a normalised direction, as computed
inside `calculateSnapPosition`. -/
def dirProjection (u size : V3) : ℝ :=
  |u.x| * size.x / 2 + |u.y| * size.y / 2 + |u.z| * size.z / 2

/-- `calculateSnapPosition` (part_006 line 532): place `newObj` so that the
box centers sit `newProjection + existingProjection + penetration·avgSize·1.5`
apart along the normalised direction, and return the object position
realising that box-center target. -/
noncomputable def calculateSnapPosition (newO exO : PlacedPart) (desiredDirection : V3)
    (penetration : ℝ) : V3 :=
  let direction := desiredDirection.normalize
  let newBox := objBox newO
  let existingBox := objBox exO
  let newCenter := newBox.getCenter
  let existingCenter := existingBox.getCenter
  let newSize := newBox.getSize
  let existingSize := existingBox.getSize
  let newProjection := dirProjection direction newSize
  let existingProjection := dirProjection direction existingSize
  let avgSize := (newProjection + existingProjection) / 2
  let snapDistance := newProjection + existingProjection + penetration * avgSize * 1.5
  let targetCenter := existingCenter + V3.scale snapDistance direction
  let offset := targetCenter - newCenter
  newO.pos + offset

/-- One collision scan of `adjustPositionToAvoidCollision`: fold over the
placed objects, record whether any collision was seen and the snap
candidate closest to `initialPosition` (squared distances; `minDistance`
starts at `Infinity`, modelled by `none`). -/
noncomputable def collideScan (newO : PlacedPart) (existing : List PlacedPart)
    (dir : V3) (pen : ℝ) (initPos : V3) : Bool × Option (ℝ × V3) :=
  existing.foldl
    (fun acc ex =>
      if checkCollision newO ex 0.80 then
        let snapPos := calculateSnapPosition newO ex dir pen
        let d2 := snapPos.dist2 initPos
        match acc.2 with
        | none => (true, some (d2, snapPos))
        | some cur => (true, if d2 < cur.1 then some (d2, snapPos) else acc.2)
      else acc)
    (false, none)

/-- The bounded adjustment loop (8 rounds): snap to the best candidate when
colliding, nudge along the preferred direction when no candidate exists
(the source keeps that branch although a colliding scan always yields a
candidate), accept as soon as a round sees no collision. -/
noncomputable def adjustIter (existing : List PlacedPart) (initPos dir : V3) (pen : ℝ) :
    ℕ → PlacedPart → PlacedPart
  | 0, o => o
  | fuel + 1, o =>
    let scan := collideScan o existing dir pen initPos
    if scan.1 then
      match scan.2 with
      | some best => adjustIter existing initPos dir pen fuel { o with pos := best.2 }
      | none => adjustIter existing initPos dir pen fuel { o with pos := o.pos + V3.scale 0.03 dir }
    else o

/-- `adjustPositionToAvoidCollision` (part_006 line 591); the callers use
the mutated clone, so the model returns the placed part. -/
noncomputable def adjustPositionToAvoidCollision (newO : PlacedPart)
    (existing : List PlacedPart) (initPos dir : V3) (pen : ℝ) : PlacedPart :=
  match existing with
  | [] => newO
  | _ => adjustIter existing initPos dir pen 8 { newO with pos := initPos }

open Classical in
/-- `checkContact` (part_006 line 646). -/
def checkContact (o1 o2 : PlacedPart) (contactScale : ℝ) : Prop :=
  if contactScale = 1 then (objBox o1).intersects (objBox o2)
  else
    let box1 := objBox o1
    let box2 := objBox o2
    let s1 := BoxR.fromCenterAndSize box1.getCenter (V3.scale contactScale box1.getSize)
    let s2 := BoxR.fromCenterAndSize box2.getCenter (V3.scale contactScale box2.getSize)
    s1.intersects s2

/-- `getDirectionToObject` (part_006 line 675). -/
noncomputable def getDirectionToObject (o1 o2 : PlacedPart) : V3 :=
  ((objBox o2).getCenter - (objBox o1).getCenter).normalize

/-- Nearest other object by box-center distance (squared distances;
`minDistance` starts at `Infinity`, modelled by `none`). -/
noncomputable def nearestOther (obj : PlacedPart) (others : List PlacedPart) :
    Option PlacedPart :=
  (others.foldl
    (fun acc o =>
      let d2 := (objBox obj).getCenter.dist2 (objBox o).getCenter
      match acc with
      | none => some (o, d2)
      | some cur => if d2 < cur.2 then some (o, d2) else acc)
    (none : Option (PlacedPart × ℝ))).map Prod.fst

open Classical in
/-- The contact loop of `ensureContact`: up to `maxAttempts · 1.5 = 15`
rounds of snap toward the nearest object (penetration −0.2), stop on
contact at scale 0.90, else nudge by `0.03 · (attempt + 1)`. -/
noncomputable def contactLoop (nearest : PlacedPart) (dir : V3) :
    ℕ → ℕ → PlacedPart → PlacedPart
  | _, 0, o => o
  | attempt, fuel + 1, o =>
    let o1 := { o with pos := calculateSnapPosition o nearest dir (-0.2) }
    if checkContact o1 nearest 0.90 then o1
    else contactLoop nearest dir (attempt + 1) fuel
      { o1 with pos := o1.pos + V3.scale (0.03 * ((attempt : ℝ) + 1)) dir }

open Classical in
/-- `ensureContact` (part_006 line 692), always called with the default
`maxAttempts = 10`, hence 15 loop rounds. -/
noncomputable def ensureContact (obj : PlacedPart) (others : List PlacedPart) : PlacedPart :=
  match others with
  | [] => obj
  | _ =>
    if ∃ o ∈ others, checkContact obj o 0.90 then obj
    else
      match nearestOther obj others with
      | none => obj
      | some nearest => contactLoop nearest (getDirectionToObject obj nearest) 0 15 obj

/-- Update element `i` of the placed list by `ensureContact` against the
given (already extracted) other objects. -/
noncomputable def ensureContactAt (l : List PlacedPart) (i : ℕ)
    (others : List PlacedPart) : List PlacedPart :=
  match l.get? i with
  | none => l
  | some obj => l.set i (ensureContact obj others)

/-- The objects at indices other than `i`, in list order
(`allObjects.filter((o, idx) => idx !== i)`). -/
def othersExcept (l : List PlacedPart) (i : ℕ) : List PlacedPart :=
  (l.enum.filter (fun p => p.1 != i)).map Prod.snd

/-- Pass 1 of `ensureAllFragmentsContact`: every object is forced into
contact with the rest, in index order, later iterations seeing earlier
moves. -/
noncomputable def contactPass1 : ℕ → ℕ → List PlacedPart → List PlacedPart
  | _, 0, l => l
  | i, fuel + 1, l => contactPass1 (i + 1) fuel (ensureContactAt l i (othersExcept l i))

open Classical in
/-- Wing-like heuristic of the reinforcement pass:
`|center.x| > 0.2 ∧ |center.y| < 0.5`. -/
def isWingLike (p : PlacedPart) : Prop :=
  0.2 < |(objBox p).getCenter.x| ∧ |(objBox p).getCenter.y| < 0.5

open Classical in
/-- Foot-like heuristic of the reinforcement pass:
`|center.y| > 0.3 ∧ center.y < 0`. -/
def isFootLike (p : PlacedPart) : Prop :=
  0.3 < |(objBox p).getCenter.y| ∧ (objBox p).getCenter.y < 0

open Classical in
/-- Left side of the reinforcement grouping: `center.x < 0`. -/
def isLeftSide (p : PlacedPart) : Prop := (objBox p).getCenter.x < 0

open Classical in
/-- Same-side reinforcement: member `k` (from 1) of a group is forced into
contact with the earlier members of its group (`slice(0, k)`), reading the
current list state. -/
noncomputable def sideReinforce (idxs : List ℕ) : ℕ → ℕ → List PlacedPart → List PlacedPart
  | _, 0, l => l
  | k, fuel + 1, l =>
    let i := idxs.getD k 0
    let others := (idxs.take k).map (fun j => l.getD j default)
    sideReinforce idxs (k + 1) fuel (ensureContactAt l i others)

open Classical in
/-- Group the current list's indices whose element satisfies `cond`, split
by side, and reinforce each side of size > 1. -/
noncomputable def reinforceGroups (cond : PlacedPart → Prop) (l : List PlacedPart) :
    List PlacedPart :=
  let objs := l.enum.filter (fun p => decide (cond p.2))
  let leftIdx := (objs.filter (fun p => decide (isLeftSide p.2))).map Prod.fst
  let rightIdx := (objs.filter (fun p => !decide (isLeftSide p.2))).map Prod.fst
  let l1 := if 1 < leftIdx.length then sideReinforce leftIdx 1 (leftIdx.length - 1) l else l
  if 1 < rightIdx.length then sideReinforce rightIdx 1 (rightIdx.length - 1) l1 else l1

/-- `ensureAllFragmentsContact` (part_006 line 752): the general pass, then
wing-like reinforcement, then foot-like reinforcement (each grouping read
from the state the previous phase left). -/
noncomputable def ensureAllFragmentsContact (l : List PlacedPart) : List PlacedPart :=
  if l.length ≤ 1 then l
  else
    let l1 := contactPass1 0 l.length l
    let l2 := reinforceGroups isWingLike l1
    reinforceGroups isFootLike l2

/-! ## Role assignment and assembly (`synthesizeCreature`) -/

/-- `getBoundingBox` (part_006 line 482) at the default `scale = 0.80`,
applied to an unplaced, unrotated fragment: the scaled size and the
(unscaled) center. -/
def getBoundingBox (f : Fragment) (s : ℝ) : V3 × V3 :=
  if s = 1 then (f.geomSize default, f.geomCenter default)
  else (V3.scale s (f.geomSize default), f.geomCenter default)

/-- One swap `[arr[i], arr[j]] = [arr[j], arr[i]]`, both reads from the old
list. -/
def swapIdx {α : Type} [Inhabited α] (l : List α) (i j : ℕ) : List α :=
  (l.set i (l.getD j default)).set j (l.getD i default)

/-- The shuffle loop of `synthesizeCreature` (part_006 lines 858-861):
`for (i = n-1; i > 1; i--) { j = floor(random()·(i-1)) + 1; swap i j }`;
the first argument is the next random index, the second the current `i`. -/
noncomputable def shuffleGo {α : Type} [Inhabited α] (rand : ℕ → ℝ) :
    ℕ → ℕ → List α → List α
  | _, 0, l => l
  | _, 1, l => l
  | k, m + 2, l =>
    let i := m + 2
    let j := (Int.floor (rand k * ((i : ℝ) - 1))).toNat + 1
    shuffleGo rand (k + 1) (m + 1) (swapIdx l i j)

/-- The whole shuffle: indices `1..n-1` of the list are permuted, index 0
untouched, random draws starting at stream index `k`. -/
noncomputable def shuffleTail {α : Type} [Inhabited α] (rand : ℕ → ℝ) (k : ℕ)
    (l : List α) : List α :=
  shuffleGo rand k (l.length - 1) l

/-- The role buckets built from the shuffled list. -/
structure PartsB where
  chest : Option Fragment
  head : Option Fragment
  belly : Option Fragment
  wings : List Fragment
  tail : Option Fragment
  feet : List Fragment

/-- The reserve rule (line 881): keep 2 fragments for tail and foot when
more than 2 remain, 1 when any remain, else 0. -/
def reservedForTailAndFeet (remainingCount : ℕ) : ℕ :=
  if 2 < remainingCount then 2 else if 0 < remainingCount then 1 else 0

/-- The index walk of `synthesizeCreature` (lines 863-902): torso, head,
belly, then `wingCount = remaining − reserved` wings, then tail (only when
`reserved ≥ 2`), then at most one foot. -/
def assignParts (s : List FragEntry) : PartsB :=
  let n := s.length
  let chest := (s.get? 0).map (·.fragment)
  let headF := (s.get? 1).map (·.fragment)
  let belly := (s.get? 2).map (·.fragment)
  let idx := min 3 n
  let remainingCount := n - idx
  let reserved : ℕ := reservedForTailAndFeet remainingCount
  let wingCount := remainingCount - reserved
  let wings := ((s.drop idx).take wingCount).map (·.fragment)
  let idx2 := idx + wingCount
  let tailF := if 2 ≤ reserved then (s.get? idx2).map (·.fragment) else none
  let idx3 := if 2 ≤ reserved ∧ idx2 < n then idx2 + 1 else idx2
  let feet := match s.get? idx3 with
    | some e => [e.fragment]
    | none => []
  ⟨chest, headF, belly, wings, tailF, feet⟩

/-- Even-index entries of a list (the left side of the parity split). -/
def evenIdx {α : Type} (l : List α) : List α :=
  (l.enum.filter (fun p => p.1 % 2 = 0)).map Prod.snd

/-- Odd-index entries of a list (the right side of the parity split). -/
def oddIdx {α : Type} (l : List α) : List α :=
  (l.enum.filter (fun p => p.1 % 2 = 1)).map Prod.snd

/-- Mirror rule for wings and feet: when one side is empty and the other
populated, clone the populated side's first element to the empty side. -/
def mirrorSides (fs : List Fragment) : List Fragment × List Fragment :=
  let lefts := evenIdx fs
  let rights := oddIdx fs
  match lefts, rights with
  | [], r :: rs => ([r], r :: rs)
  | l :: ls, [] => (l :: ls, [l])
  | ls, rs => (ls, rs)

open Classical in
/-- Placement of one side's wings (lines 985-1062): role-specific fixed
rotations, side chaining off the most recently placed same-side wing, then
collision adjustment toward the outside with penetration −0.25. -/
noncomputable def placeWingSide (isLeft : Bool) (wingSpacing : ℝ) :
    List Fragment → ℕ → List PlacedPart → List PlacedPart
  | [], _, placed => placed
  | w :: rest, index, placed =>
    let wingBB := getBoundingBox w 0.80
    let roty : ℝ := if isLeft then -(Real.pi / 3) + index * 0.1 else Real.pi / 3 - index * 0.1
    let rotz : ℝ := if isLeft then Real.pi / 6 else -(Real.pi / 6)
    let baseX : ℝ := if isLeft then -(wingSpacing * 0.6) else wingSpacing * 0.6
    let initialX : ℝ :=
      if 0 < index then
        let sameSide := placed.filter (fun o =>
          decide ((if isLeft then (objBox o).getCenter.x < 0 else 0 < (objBox o).getCenter.x) ∧
            |(objBox o).getCenter.y| < 0.5))
        match sameSide.getLast? with
        | some nearest =>
          (objBox nearest).getCenter.x +
            (if isLeft then -(wingBB.1.x * 0.15) else wingBB.1.x * 0.15)
        | none => baseX
      else baseX
    let clone := mkPlaced w .wing ⟨initialX, 0, 0⟩ ⟨0, roty, rotz⟩
    let dir : V3 := if isLeft then ⟨-1, 0, 0⟩ else ⟨1, 0, 0⟩
    let adjusted := adjustPositionToAvoidCollision clone placed clone.pos dir (-0.25)
    placeWingSide isLeft wingSpacing rest (index + 1) (placed ++ [adjusted])

open Classical in
/-- Placement of one side's feet (lines 1119-1196): below the belly/torso
bottom, side chaining at equal height, collision adjustment downward with
penetration −0.25. -/
noncomputable def placeFootSide (isLeft : Bool) (bottomY : ℝ) :
    List Fragment → ℕ → List PlacedPart → List PlacedPart
  | [], _, placed => placed
  | f :: rest, index, placed =>
    let footBB := getBoundingBox f 0.80
    let baseX : ℝ := if isLeft then -0.3 else 0.3
    let baseY : ℝ := bottomY - footBB.1.y / 2 * 0.5
    let ipos : ℝ × ℝ :=
      if 0 < index then
        let sameSide := placed.filter (fun o =>
          decide ((if isLeft then (objBox o).getCenter.x < 0 else 0 < (objBox o).getCenter.x) ∧
            (objBox o).getCenter.y < 0))
        match sameSide.getLast? with
        | some nearest =>
          ((objBox nearest).getCenter.x +
            (if isLeft then -(footBB.1.x * 0.1) else footBB.1.x * 0.1),
           (objBox nearest).getCenter.y)
        | none => (baseX, baseY)
      else (baseX, baseY)
    let clone := mkPlaced f .foot ⟨ipos.1, ipos.2, 0⟩ ⟨0, 0, 0⟩
    let adjusted := adjustPositionToAvoidCollision clone placed clone.pos ⟨0, -1, 0⟩ (-0.25)
    placeFootSide isLeft bottomY rest (index + 1) (placed ++ [adjusted])

/-- Stage 1 (lines 909-918): the chest clone at the origin, plus the
`chestHeight` the later stages read. -/
noncomputable def placeChestStage (parts : PartsB) : List PlacedPart × ℝ :=
  match parts.chest with
  | none => ([], 0)
  | some c => ([mkPlaced c .torso ⟨0, 0, 0⟩ ⟨0, 0, 0⟩], (getBoundingBox c 0.80).1.y)

/-- Stage 2 (lines 920-937): the head above the chest. -/
noncomputable def placeHeadStage (parts : PartsB) (chestHeight : ℝ)
    (placed : List PlacedPart) : List PlacedPart :=
  match parts.head with
  | none => placed
  | some h =>
    let headBB := getBoundingBox h 0.80
    let initialHeadY := chestHeight / 2 + headBB.1.y / 2 * 0.5
    let clone := mkPlaced h .head ⟨0, initialHeadY, 0⟩ ⟨0, 0, 0⟩
    placed ++ [adjustPositionToAvoidCollision clone placed clone.pos ⟨0, 1, 0⟩ (-0.3)]

/-- Stage 3 (lines 939-956): the belly below the chest. -/
noncomputable def placeBellyStage (parts : PartsB) (chestHeight : ℝ)
    (placed : List PlacedPart) : List PlacedPart :=
  match parts.belly with
  | none => placed
  | some b =>
    let bellyBB := getBoundingBox b 0.80
    let initialBellyY := -(chestHeight / 2) - bellyBB.1.y / 2 * 0.5
    let clone := mkPlaced b .belly ⟨0, initialBellyY, 0⟩ ⟨0, 0, 0⟩
    placed ++ [adjustPositionToAvoidCollision clone placed clone.pos ⟨0, -1, 0⟩ (-0.3)]

/-- Stage 4 (lines 958-1063): wings split to both sides, mirrored when one
side is empty. -/
noncomputable def placeWingsStage (parts : PartsB) (placed : List PlacedPart) :
    List PlacedPart :=
  match parts.wings with
  | [] => placed
  | _ :: _ =>
    let chestSizeX : ℝ :=
      match parts.chest with
      | some c => (getBoundingBox c 0.80).1.x
      | none => 1
    let wingSpacing := chestSizeX / 2
    let sides := mirrorSides parts.wings
    let afterLeft := placeWingSide true wingSpacing sides.1 0 placed
    placeWingSide false wingSpacing sides.2 0 afterLeft

/-- Stage 5 (lines 1065-1087): the tail behind the belly (or chest). -/
noncomputable def placeTailStage (parts : PartsB) (chestHeight : ℝ)
    (placed : List PlacedPart) : List PlacedPart :=
  match parts.tail with
  | none => placed
  | some t =>
    let tailBB := getBoundingBox t 0.80
    let tailY : ℝ :=
      match parts.belly with
      | some b => -(chestHeight / 2) - (getBoundingBox b 0.80).1.y / 2 * 0.5
      | none => -(chestHeight / 2)
    let clone := mkPlaced t .tail ⟨0, tailY - 0.05, tailBB.1.z / 2 * 0.4⟩
      ⟨-(Real.pi / 12), 0, 0⟩
    placed ++ [adjustPositionToAvoidCollision clone placed clone.pos ⟨0, 0, 1⟩ (-0.25)]

/-- Stage 6 (lines 1089-1197): feet at the bottom, split and mirrored. -/
noncomputable def placeFeetStage (parts : PartsB) (chestHeight : ℝ)
    (placed : List PlacedPart) : List PlacedPart :=
  match parts.feet with
  | [] => placed
  | _ :: _ =>
    let bottomY : ℝ :=
      match parts.belly with
      | some b => -(chestHeight / 2) - (getBoundingBox b 0.80).1.y / 2
      | none => -(chestHeight / 2)
    let sides := mirrorSides parts.feet
    let afterLeft := placeFootSide true bottomY sides.1 0 placed
    placeFootSide false bottomY sides.2 0 afterLeft

/-- The assembly stage of `synthesizeCreature` (lines 904-1197): chest at
the origin, head above, belly below, wings split/mirrored to both sides,
tail behind, feet split/mirrored below — each non-torso part run through
the collision adjustment against everything placed so far. -/
noncomputable def assemblePlaced (frags : List FragEntry) (rand : ℕ → ℝ) : List PlacedPart :=
  match frags with
  | [] => []
  | _ :: _ =>
    let s := shuffleTail rand 1 frags
    let parts := assignParts s
    let chestData := placeChestStage parts
    let chestHeight := chestData.2
    placeFeetStage parts chestHeight
      (placeTailStage parts chestHeight
        (placeWingsStage parts
          (placeBellyStage parts chestHeight
            (placeHeadStage parts chestHeight chestData.1))))

/-- The creature returned by `synthesizeCreature`: the placed clones in
insertion order plus the `userData` fields. -/
structure Creature where
  placed : List PlacedPart
  fragmentCount : ℕ
  partTypes : List ℕ

/-- `synthesizeCreature` (part_006 line 833): the artificial 500–1500 ms
delay consumes random draw 0 and does no work; then role assignment and
placement, then the contact pass when more than one object was placed. -/
noncomputable def synthesizeCreature (frags : List FragEntry) (rand : ℕ → ℝ) : Creature :=
  let pre := assemblePlaced frags rand
  let post := if 1 < pre.length then ensureAllFragmentsContact pre else pre
  ⟨post, frags.length, frags.map (·.partType)⟩

end

/-! ## Concrete fixtures used by witnesses and counterexamples -/

/-- A constant valid random stream. -/
def rand0 : ℕ → ℚ := fun _ => 1 / 2

/-- A raycast oracle that never hits. -/
def oracle0 : RayOracle := fun _ _ => none

/-- Options requesting two points of size 1, no colour override. -/
def opts0 : SkinOptions := ⟨2, 1, 0, none, 1⟩

/-- A sub-mesh lacking a position attribute. -/
def meshNoPos : MeshQ := ⟨none, none, some whiteQ⟩

/-- A white sub-mesh with a single vertex (its bounding box is a point, so
its area proxy is 0). -/
def mesh1 : MeshQ := ⟨some [⟨0, 0, 0⟩], none, some whiteQ⟩

/-- A white sub-mesh with a unit-diagonal box (area proxy 3). -/
def mesh2 : MeshQ := ⟨some [⟨0, 0, 0⟩, ⟨1, 1, 1⟩], none, some whiteQ⟩

/-- An object with no renderable sub-mesh. -/
def obj0 : ObjQ := ⟨[], ⟨0, 0, 0⟩, ⟨0, 0, 0⟩, ⟨1, 1, 1⟩⟩

/-- An object whose only sub-mesh lacks position data. -/
def objNoPos : ObjQ := ⟨[meshNoPos], ⟨0, 0, 0⟩, ⟨0, 0, 0⟩, ⟨1, 1, 1⟩⟩

/-- An object with one single-vertex sub-mesh. -/
def obj1 : ObjQ := ⟨[mesh1], ⟨0, 0, 0⟩, ⟨0, 0, 0⟩, ⟨1, 1, 1⟩⟩

/-- An object with one sub-mesh of positive area proxy. -/
def obj2 : ObjQ := ⟨[mesh2], ⟨0, 0, 0⟩, ⟨0, 0, 0⟩, ⟨1, 1, 1⟩⟩

/-! ## Sampler lemmas -/

/-- The area proxy a mesh contributes, as the first pass computes it. -/
def meshAreaOf (m : MeshQ) : ℚ :=
  let size := attrSize (m.positions.getD [])
  size.x * size.y + size.y * size.z + size.x * size.z

theorem computeMeshAreas_eq (ms : List MeshQ) (h : ∀ m ∈ ms, m.positions ≠ none) :
    computeMeshAreas ms = .ok (ms.map fun m => ⟨m, m.positions.getD [], meshAreaOf m⟩) := by
  induction ms with
  | nil => rfl
  | cons m rest ih =>
    have hm := h m (List.mem_cons_self m rest)
    obtain ⟨ps, hps⟩ : ∃ ps, m.positions = some ps := by
      cases hmp : m.positions with
      | none => exact absurd hmp hm
      | some ps => exact ⟨ps, rfl⟩
    have hrest := ih fun x hx => h x (List.mem_cons_of_mem m hx)
    simp only [computeMeshAreas, hps, hrest, meshAreaOf, List.map_cons, Option.getD_some]

theorem vertexLoop_length (rand : ℕ → ℚ) (pc : ℕ) (ps thick : ℚ) (positions : List Q3)
    (normalsA : Option (List Q3)) (mc : ColorQ) (stp : ℕ) :
    ∀ (fuel i : ℕ) (st : SampleState),
      (vertexLoop rand pc ps thick positions normalsA mc stp i fuel st).samples.length =
        st.samples.length + min fuel (pc - st.samples.length) := by
  intro fuel
  induction fuel with
  | zero => intro i st; simp [vertexLoop]
  | succ n ih =>
    intro i st
    rw [vertexLoop]
    by_cases h : st.samples.length < pc
    · simp only [if_pos h]
      rw [ih]
      simp only [List.length_append, List.length_singleton]
      omega
    · simp only [if_neg h]
      omega

theorem surfaceLoop_length (rand : ℕ → ℚ) (oracle : RayOracle) (pc : ℕ) (ps thick : ℚ)
    (positions : List Q3) (normalsA : Option (List Q3)) (mc : ColorQ)
    (size center : Q3) (maxSize : ℚ) :
    ∀ (fuel : ℕ) (st : SampleState),
      (surfaceLoop rand oracle pc ps thick positions normalsA mc size center maxSize
        fuel st).samples.length = st.samples.length + min fuel (pc - st.samples.length) := by
  intro fuel
  induction fuel with
  | zero => intro st; simp [surfaceLoop]
  | succ n ih =>
    intro st
    rw [surfaceLoop]
    by_cases h : st.samples.length < pc
    · simp only [if_pos h]
      rw [ih]
      simp only [List.length_append, List.length_singleton]
      omega
    · simp only [if_neg h]
      omega

theorem padLoop_length (rand : ℕ → ℚ) (opts : SkinOptions) (mas : List MeshData) :
    ∀ (fuel : ℕ) (st : SampleState),
      (padLoop rand opts mas fuel st).samples.length = st.samples.length + fuel := by
  intro fuel
  induction fuel with
  | zero => intro st; simp [padLoop]
  | succ n ih =>
    intro st
    rw [padLoop]
    rw [ih]
    simp only [List.length_append, List.length_singleton]
    omega

theorem vsc_le_pfm (pfm : ℕ) : (Int.floor ((pfm : ℚ) * 0.3)).toNat ≤ pfm := by
  have h1 : (pfm : ℚ) * 0.3 ≤ (pfm : ℚ) := by
    have hn : (0 : ℚ) ≤ (pfm : ℚ) := Nat.cast_nonneg pfm
    nlinarith
  have h2 : Int.floor ((pfm : ℚ) * 0.3) ≤ Int.floor ((pfm : ℚ)) := Int.floor_le_floor h1
  rw [Int.floor_natCast] at h2
  exact Int.toNat_le.mpr h2

/-- Exactly how many samples one mesh's step emits: its point budget,
capped by the remaining room below `pointCount`. -/
theorem meshStep_length (rand : ℕ → ℚ) (oracle : RayOracle) (opts : SkinOptions)
    (totalArea : ℚ) (md : MeshData) (st : SampleState) :
    (meshStep rand oracle opts totalArea md st).samples.length =
      st.samples.length +
        min ((Int.floor (md.area / totalArea * opts.pointCount)).toNat)
          (opts.pointCount - st.samples.length) := by
  have hvle := vsc_le_pfm ((Int.floor (md.area / totalArea * opts.pointCount)).toNat)
  simp only [meshStep]
  by_cases hv : 0 < (Int.floor (((Int.floor (md.area / totalArea * opts.pointCount)).toNat : ℚ)
      * 0.3)).toNat
  · simp only [if_pos hv]
    rw [surfaceLoop_length, vertexLoop_length]
    omega
  · simp only [if_neg hv]
    rw [surfaceLoop_length]
    omega

theorem meshLoop_le (rand : ℕ → ℚ) (oracle : RayOracle) (opts : SkinOptions)
    (totalArea : ℚ) :
    ∀ (mas : List MeshData) (st : SampleState),
      st.samples.length ≤ opts.pointCount →
      (meshLoop rand oracle opts totalArea mas st).samples.length ≤ opts.pointCount := by
  intro mas
  induction mas with
  | nil => intro st h; simpa [meshLoop] using h
  | cons md rest ih =>
    intro st h
    rw [meshLoop]
    apply ih
    rw [meshStep_length]
    omega

/-- With every mesh budget fitting below `pointCount`, the generation pass
emits exactly the sum of the per-mesh budgets. -/
theorem meshLoop_length_exact (rand : ℕ → ℚ) (oracle : RayOracle) (opts : SkinOptions)
    (totalArea : ℚ) :
    ∀ (mas : List MeshData) (st : SampleState),
      st.samples.length +
          (mas.map fun md => (Int.floor (md.area / totalArea * opts.pointCount)).toNat).sum ≤
        opts.pointCount →
      (meshLoop rand oracle opts totalArea mas st).samples.length =
        st.samples.length +
          (mas.map fun md => (Int.floor (md.area / totalArea * opts.pointCount)).toNat).sum := by
  intro mas
  induction mas with
  | nil => intro st h; simp [meshLoop]
  | cons md rest ih =>
    intro st h
    simp only [List.map_cons, List.sum_cons] at h ⊢
    rw [meshLoop, ih _ (by rw [meshStep_length]; omega), meshStep_length]
    omega

/-- Claim C10 core: when the sampler succeeds, the output sample count is
exactly the requested `pointCount`. -/
theorem skin_count_eq (obj : ObjQ) (opts : SkinOptions) (rand : ℕ → ℚ) (oracle : RayOracle)
    (h1 : obj.meshes ≠ []) (h2 : ∀ m ∈ obj.meshes, m.positions ≠ none) :
    ∃ pc, createPointCloudSkin obj opts rand oracle = .ok (some pc) ∧
      pc.samples.length = opts.pointCount := by
  have hlen : ¬ obj.meshes.length = 0 := by simpa [List.length_eq_zero] using h1
  have hareas := computeMeshAreas_eq obj.meshes h2
  set mas := obj.meshes.map (fun m => (⟨m, m.positions.getD [], meshAreaOf m⟩ : MeshData))
    with hmas
  have hle : (prePadState opts rand oracle mas).samples.length ≤ opts.pointCount := by
    rw [prePadState]
    apply meshLoop_le
    simp
  refine ⟨⟨(padLoop rand opts mas
      (opts.pointCount - (prePadState opts rand oracle mas).samples.length)
      (prePadState opts rand oracle mas)).samples, obj.position, obj.rotation, obj.scale⟩,
    ?_, ?_⟩
  · rw [createPointCloudSkin, if_neg hlen, hareas]
  · rw [padLoop_length]
    omega

@[simp] theorem Q3_add_x (a b : Q3) : (a + b).x = a.x + b.x := rfl

@[simp] theorem Q3_add_y (a b : Q3) : (a + b).y = a.y + b.y := rfl

@[simp] theorem Q3_add_z (a b : Q3) : (a + b).z = a.z + b.z := rfl

@[simp] theorem Q3_sub_x (a b : Q3) : (a - b).x = a.x - b.x := rfl

@[simp] theorem Q3_sub_y (a b : Q3) : (a - b).y = a.y - b.y := rfl

@[simp] theorem Q3_sub_z (a b : Q3) : (a - b).z = a.z - b.z := rfl

theorem listMin3_le_listMax3 :
    ∀ (l : List Q3) (p q : Q3), p.x ≤ q.x → p.y ≤ q.y → p.z ≤ q.z →
      (listMin3 p l).x ≤ (listMax3 q l).x ∧ (listMin3 p l).y ≤ (listMax3 q l).y ∧
        (listMin3 p l).z ≤ (listMax3 q l).z := by
  intro l
  induction l with
  | nil => intro p q h1 h2 h3; exact ⟨h1, h2, h3⟩
  | cons a t ih =>
    intro p q h1 h2 h3
    simp only [listMin3, listMax3, List.foldl_cons] at *
    exact ih ⟨min p.x a.x, min p.y a.y, min p.z a.z⟩ ⟨max q.x a.x, max q.y a.y, max q.z a.z⟩
      (le_trans (min_le_right _ _) (le_max_right _ _))
      (le_trans (min_le_right _ _) (le_max_right _ _))
      (le_trans (min_le_right _ _) (le_max_right _ _))

theorem attrSize_nonneg (l : List Q3) :
    0 ≤ (attrSize l).x ∧ 0 ≤ (attrSize l).y ∧ 0 ≤ (attrSize l).z := by
  cases l with
  | nil => exact ⟨le_refl 0, le_refl 0, le_refl 0⟩
  | cons p rest =>
    obtain ⟨h1, h2, h3⟩ := listMin3_le_listMax3 rest p p le_rfl le_rfl le_rfl
    simp only [attrSize, Q3_sub_x, Q3_sub_y, Q3_sub_z]
    exact ⟨by linarith, by linarith, by linarith⟩

theorem meshAreaOf_nonneg (m : MeshQ) : 0 ≤ meshAreaOf m := by
  obtain ⟨hx, hy, hz⟩ := attrSize_nonneg (m.positions.getD [])
  rw [meshAreaOf]
  have := mul_nonneg hx hy
  have := mul_nonneg hy hz
  have := mul_nonneg hx hz
  linarith

theorem list_sum_map_add {α : Type} (l : List α) (f g : α → ℚ) :
    (l.map fun a => f a + g a).sum = (l.map f).sum + (l.map g).sum := by
  induction l with
  | nil => simp
  | cons a t ih => simp [ih]; ring

theorem list_sum_map_one {α : Type} (l : List α) :
    (l.map fun _ => (1 : ℚ)).sum = l.length := by
  induction l with
  | nil => simp
  | cons a t ih => simp [ih]; ring

/-- Total area proxy of an object, as accumulated by the first pass. -/
def totalAreaOf (obj : ObjQ) : ℚ := (obj.meshes.map meshAreaOf).sum

/-! ## Claim C9: empty objects give null without an exception -/

/-- Claim C9: an object containing no renderable sub-mesh makes
`createPointCloudSkin` return null (`.ok none`) and raise nothing. -/
theorem C9_no_mesh_null (obj : ObjQ) (opts : SkinOptions) (rand : ℕ → ℚ)
    (oracle : RayOracle) (h : obj.meshes = []) :
    createPointCloudSkin obj opts rand oracle = .ok none := by
  rw [createPointCloudSkin, if_pos (by simp [h])]

/-- Witness for C9 at a concrete empty object. -/
theorem C9_no_mesh_null_witness : createPointCloudSkin obj0 opts0 rand0 oracle0 = .ok none :=
  C9_no_mesh_null obj0 opts0 rand0 oracle0 rfl

/-! ## Claim C6: sub-mesh without position data -/

/-- Counterexample to claim C6 as stated: `createPointCloudSkin` applied to
an object whose sub-mesh lacks a position attribute throws (the model's
`.error`), instead of skipping the sub-mesh with a warning. -/
theorem C6_counterexample :
    createPointCloudSkin objNoPos opts0 rand0 oracle0 =
      .error "TypeError: setFromBufferAttribute of undefined" := rfl

/-- Claim C6 amended: the skip-with-warning behaviour for geometry lacking
position data belongs to `geometryToPointCloud` (which returns null); and
`createPointCloudSkin` raises nothing whenever every sub-mesh carries
position data. -/
theorem C6_amended :
    (∀ (g : GeomQ) (d : ℚ) (rand : ℕ → ℚ), g.positions = none →
      geometryToPointCloud g d rand = none) ∧
    (∀ (obj : ObjQ) (opts : SkinOptions) (rand : ℕ → ℚ) (oracle : RayOracle),
      (∀ m ∈ obj.meshes, m.positions ≠ none) →
      ∃ r, createPointCloudSkin obj opts rand oracle = .ok r) := by
  constructor
  · intro g d rand h
    rw [geometryToPointCloud, h]
  · intro obj opts rand oracle h
    by_cases hm : obj.meshes = []
    · exact ⟨none, C9_no_mesh_null obj opts rand oracle hm⟩
    · obtain ⟨pc, hpc, _⟩ := skin_count_eq obj opts rand oracle hm h
      exact ⟨some pc, hpc⟩

/-- Witness for the amended C6 at concrete inputs. -/
theorem C6_amended_witness :
    geometryToPointCloud ⟨none, none, none⟩ 1 rand0 = none ∧
    ∃ r, createPointCloudSkin obj1 opts0 rand0 oracle0 = .ok r :=
  ⟨C6_amended.1 ⟨none, none, none⟩ 1 rand0 rfl,
   C6_amended.2 obj1 opts0 rand0 oracle0 (by simp [obj1, mesh1])⟩

/-! ## Claim C7: count floor and pre-padding shortfall -/

theorem list_sum_map_mul_right {α : Type} (l : List α) (f : α → ℚ) (r : ℚ) :
    (l.map fun a => f a * r).sum = (l.map f).sum * r := by
  induction l with
  | nil => simp
  | cons a t ih => simp [ih]; ring

/-- Counterexample to claim C7 as stated: a one-mesh object whose bounding
box is a single point has area proxy 0, so its budget share is the
indeterminate `0/0` (`NaN` in JS, making every sampling loop bound fail)
and the pass before padding emits no samples at all: with `pointCount = 2`
the pre-padding shortfall is 2, exceeding the sub-mesh count 1. -/
theorem C7_counterexample :
    computeMeshAreas obj1.meshes = .ok [⟨mesh1, [⟨0, 0, 0⟩], 0⟩] ∧
    (prePadState opts0 rand0 oracle0 [⟨mesh1, [⟨0, 0, 0⟩], 0⟩]).samples.length = 0 ∧
    opts0.pointCount = 2 ∧ obj1.meshes.length = 1 ∧
    ¬(opts0.pointCount -
        (prePadState opts0 rand0 oracle0 [⟨mesh1, [⟨0, 0, 0⟩], 0⟩]).samples.length ≤
      obj1.meshes.length) := by
  have hpre : (prePadState opts0 rand0 oracle0 [⟨mesh1, [⟨0, 0, 0⟩], 0⟩]).samples.length = 0 := by
    rw [prePadState]
    norm_num [meshLoop, meshStep, surfaceLoop, opts0]
  refine ⟨?_, hpre, rfl, rfl, ?_⟩
  · norm_num [computeMeshAreas, obj1, mesh1, attrSize, listMax3, listMin3]
  · rw [hpre]
    norm_num [opts0, obj1]

/-- Claim C7 amended: for an object with at least one sub-mesh, all of them
carrying position data and with positive total area proxy, the sampler
returns at least `pointCount` points, and the count accumulated before
padding falls short of `pointCount` by at most the number of sub-meshes.
(Padding alone guarantees the floor; the shortfall bound additionally needs
the positive total area, as the counterexample shows.) -/
theorem C7_amended (obj : ObjQ) (opts : SkinOptions) (rand : ℕ → ℚ) (oracle : RayOracle)
    (h1 : obj.meshes ≠ []) (h2 : ∀ m ∈ obj.meshes, m.positions ≠ none)
    (h3 : 0 < totalAreaOf obj) :
    (∃ pc, createPointCloudSkin obj opts rand oracle = .ok (some pc) ∧
      opts.pointCount ≤ pc.samples.length) ∧
    opts.pointCount ≤
      (prePadState opts rand oracle
        (obj.meshes.map fun m => ⟨m, m.positions.getD [], meshAreaOf m⟩)).samples.length +
        obj.meshes.length := by
  have hTne : totalAreaOf obj ≠ 0 := ne_of_gt h3
  set T := totalAreaOf obj with hT
  set pcq : ℚ := (opts.pointCount : ℚ) with hpcq
  -- pointwise facts about the per-mesh quota
  have hq0 : ∀ m ∈ obj.meshes, (0 : ℚ) ≤ meshAreaOf m / T * pcq := fun m _ =>
    mul_nonneg (div_nonneg (meshAreaOf_nonneg m) h3.le) (Nat.cast_nonneg _)
  have hcastf : ∀ m ∈ obj.meshes,
      (((Int.floor (meshAreaOf m / T * pcq)).toNat : ℚ)) =
        ((Int.floor (meshAreaOf m / T * pcq) : ℤ) : ℚ) := by
    intro m hm
    have hfl : (0 : ℤ) ≤ Int.floor (meshAreaOf m / T * pcq) :=
      Int.floor_nonneg.mpr (hq0 m hm)
    exact_mod_cast congrArg (fun z : ℤ => (z : ℚ)) (Int.toNat_of_nonneg hfl)
  have hfle : ∀ m ∈ obj.meshes,
      (((Int.floor (meshAreaOf m / T * pcq)).toNat : ℚ)) ≤ meshAreaOf m / T * pcq := by
    intro m hm
    rw [hcastf m hm]
    exact Int.floor_le _
  have hfge : ∀ m ∈ obj.meshes,
      meshAreaOf m / T * pcq ≤ (((Int.floor (meshAreaOf m / T * pcq)).toNat : ℚ)) + 1 := by
    intro m hm
    rw [hcastf m hm]
    exact_mod_cast (Int.lt_floor_add_one (meshAreaOf m / T * pcq)).le
  -- the quotas sum to the requested count
  have hsumq : (obj.meshes.map fun m => meshAreaOf m / T * pcq).sum = pcq := by
    have hfe : (fun m => meshAreaOf m / T * pcq) = fun m => meshAreaOf m * (pcq / T) := by
      funext m
      rw [div_mul_eq_mul_div, mul_div_assoc]
    rw [hfe, list_sum_map_mul_right]
    have : (obj.meshes.map meshAreaOf).sum = T := rfl
    rw [this, mul_comm, div_mul_cancel₀ _ hTne]
  -- the ℕ sum of floored quotas
  set S : ℕ := (obj.meshes.map fun m => (Int.floor (meshAreaOf m / T * pcq)).toNat).sum
    with hS
  have hScast : ((S : ℚ)) =
      (obj.meshes.map fun m => (((Int.floor (meshAreaOf m / T * pcq)).toNat : ℚ))).sum := by
    rw [hS]
    rw [Nat.cast_list_sum, List.map_map]
    rfl
  have hle_sum := List.sum_le_sum hfle
  rw [hsumq] at hle_sum
  have hSle : S ≤ opts.pointCount := by
    have hq : ((S : ℚ)) ≤ pcq := by
      rw [hScast]
      exact hle_sum
    rw [hpcq] at hq
    exact_mod_cast hq
  have hge_sum := List.sum_le_sum hfge
  rw [hsumq] at hge_sum
  have hpcle : opts.pointCount ≤ S + obj.meshes.length := by
    have hq : pcq ≤ ((S : ℚ)) + (obj.meshes.length : ℚ) := by
      rw [hScast]
      calc pcq ≤ (obj.meshes.map fun m =>
            (((Int.floor (meshAreaOf m / T * pcq)).toNat : ℚ)) + 1).sum := hge_sum
        _ = (obj.meshes.map fun m =>
              (((Int.floor (meshAreaOf m / T * pcq)).toNat : ℚ))).sum +
              (obj.meshes.map fun _ => (1 : ℚ)).sum := list_sum_map_add _ _ _
        _ = _ := by rw [list_sum_map_one]
    rw [hpcq] at hq
    exact_mod_cast hq
  -- the pre-padding state emits exactly S samples
  set mas := obj.meshes.map
    (fun m => (⟨m, m.positions.getD [], meshAreaOf m⟩ : MeshData)) with hmas
  have hmasT : (mas.map MeshData.area).sum = T := by
    rw [hmas, List.map_map]
    rfl
  have hmasS : (mas.map fun md => (Int.floor (md.area / T * opts.pointCount)).toNat).sum = S := by
    rw [hmas, List.map_map, hS]
    rfl
  have hpre : (prePadState opts rand oracle mas).samples.length = S := by
    rw [prePadState, hmasT]
    have := meshLoop_length_exact rand oracle opts T mas ⟨0, 0, []⟩
      (by simpa [hmasS] using hSle)
    simpa [hmasS] using this
  constructor
  · obtain ⟨pc, hpc, hlen⟩ := skin_count_eq obj opts rand oracle h1 h2
    exact ⟨pc, hpc, hlen.ge⟩
  · rw [hpre]
    exact hpcle

/-- Witness for the amended C7 at a concrete positive-area object. -/
theorem C7_amended_witness :
    (∃ pc, createPointCloudSkin obj2 opts0 rand0 oracle0 = .ok (some pc) ∧
      opts0.pointCount ≤ pc.samples.length) ∧
    opts0.pointCount ≤
      (prePadState opts0 rand0 oracle0
        (obj2.meshes.map fun m => ⟨m, m.positions.getD [], meshAreaOf m⟩)).samples.length +
        obj2.meshes.length :=
  C7_amended obj2 opts0 rand0 oracle0 (by simp [obj2]) (by simp [obj2, mesh2])
    (by norm_num [totalAreaOf, obj2, mesh2, meshAreaOf, attrSize, listMax3, listMin3])

/-! ## Claim C8: per-sample size and colour bounds -/

@[simp] theorem ColorQ_scale_r (c : ℚ) (col : ColorQ) : (ColorQ.scale c col).r = c * col.r := rfl

@[simp] theorem ColorQ_scale_g (c : ℚ) (col : ColorQ) : (ColorQ.scale c col).g = c * col.g := rfl

@[simp] theorem ColorQ_scale_b (c : ℚ) (col : ColorQ) : (ColorQ.scale c col).b = c * col.b := rfl

/-- The shape every emitted sample has: size `pointSize·(0.7 + r·0.6)` and
colour `base·(0.8 + r'·0.4)` for some draws `r`, `r'` of the stream. -/
def emittedShape (rand : ℕ → ℚ) (ps : ℚ) (mc : ColorQ) (s : Sample) : Prop :=
  (∃ k, s.size = ps * (0.7 + rand k * 0.6)) ∧
  (∃ k, s.color = ColorQ.scale (0.8 + rand k * 0.4) mc)

theorem vertexLoop_shape (rand : ℕ → ℚ) (pc : ℕ) (ps thick : ℚ) (positions : List Q3)
    (normalsA : Option (List Q3)) (mc : ColorQ) (stp : ℕ) :
    ∀ (fuel i : ℕ) (st : SampleState) (s : Sample),
      s ∈ (vertexLoop rand pc ps thick positions normalsA mc stp i fuel st).samples →
      s ∈ st.samples ∨ emittedShape rand ps mc s := by
  intro fuel
  induction fuel with
  | zero => intro i st s hs; exact Or.inl hs
  | succ n ih =>
    intro i st s hs
    rw [vertexLoop] at hs
    by_cases h : st.samples.length < pc
    · rw [if_pos h] at hs
      rcases ih _ _ s hs with h1 | h2
      · rcases List.mem_append.mp h1 with h3 | h4
        · exact Or.inl h3
        · have h5 := List.mem_singleton.mp h4
          subst h5
          exact Or.inr ⟨⟨_, rfl⟩, ⟨_, rfl⟩⟩
      · exact Or.inr h2
    · rw [if_neg h] at hs
      exact Or.inl hs

theorem surfaceLoop_shape (rand : ℕ → ℚ) (oracle : RayOracle) (pc : ℕ) (ps thick : ℚ)
    (positions : List Q3) (normalsA : Option (List Q3)) (mc : ColorQ)
    (size center : Q3) (maxSize : ℚ) :
    ∀ (fuel : ℕ) (st : SampleState) (s : Sample),
      s ∈ (surfaceLoop rand oracle pc ps thick positions normalsA mc size center maxSize
        fuel st).samples →
      s ∈ st.samples ∨ emittedShape rand ps mc s := by
  intro fuel
  induction fuel with
  | zero => intro st s hs; exact Or.inl hs
  | succ n ih =>
    intro st s hs
    rw [surfaceLoop] at hs
    by_cases h : st.samples.length < pc
    · rw [if_pos h] at hs
      rcases ih _ s hs with h1 | h2
      · rcases List.mem_append.mp h1 with h3 | h4
        · exact Or.inl h3
        · have h5 := List.mem_singleton.mp h4
          subst h5
          exact Or.inr ⟨⟨_, rfl⟩, ⟨_, rfl⟩⟩
      · exact Or.inr h2
    · rw [if_neg h] at hs
      exact Or.inl hs

theorem meshStep_shape (rand : ℕ → ℚ) (oracle : RayOracle) (opts : SkinOptions)
    (totalArea : ℚ) (md : MeshData) (st : SampleState) (s : Sample)
    (hs : s ∈ (meshStep rand oracle opts totalArea md st).samples) :
    s ∈ st.samples ∨ emittedShape rand opts.pointSize (meshColorOf opts.color md.mesh) s := by
  rw [meshStep] at hs
  rcases surfaceLoop_shape _ _ _ _ _ _ _ _ _ _ _ _ _ _ hs with h1 | h2
  · by_cases hv : 0 < (Int.floor (((Int.floor
        (md.area / totalArea * opts.pointCount)).toNat : ℚ) * 0.3)).toNat
    · rw [if_pos hv] at h1
      exact vertexLoop_shape _ _ _ _ _ _ _ _ _ _ _ _ h1
    · rw [if_neg hv] at h1
      exact Or.inl h1
  · exact Or.inr h2

theorem meshLoop_shape (rand : ℕ → ℚ) (oracle : RayOracle) (opts : SkinOptions)
    (totalArea : ℚ) :
    ∀ (mas : List MeshData) (st : SampleState) (s : Sample),
      s ∈ (meshLoop rand oracle opts totalArea mas st).samples →
      s ∈ st.samples ∨ ∃ md ∈ mas,
        emittedShape rand opts.pointSize (meshColorOf opts.color md.mesh) s := by
  intro mas
  induction mas with
  | nil => intro st s hs; exact Or.inl hs
  | cons md rest ih =>
    intro st s hs
    rw [meshLoop] at hs
    rcases ih _ s hs with h1 | h2
    · rcases meshStep_shape rand oracle opts totalArea md st s h1 with h3 | h4
      · exact Or.inl h3
      · exact Or.inr ⟨md, List.mem_cons_self md rest, h4⟩
    · obtain ⟨md2, hmd2, hsh⟩ := h2
      exact Or.inr ⟨md2, List.mem_cons_of_mem md hmd2, hsh⟩

theorem padLoop_shape (rand : ℕ → ℚ) (opts : SkinOptions) (mas : List MeshData) :
    ∀ (fuel : ℕ) (st : SampleState) (s : Sample),
      s ∈ (padLoop rand opts mas fuel st).samples →
      s ∈ st.samples ∨ ∃ kp, emittedShape rand opts.pointSize
        (meshColorOf opts.color
          (mas.getD ((Int.floor (rand kp * (mas.length : ℚ))).toNat) default).mesh) s := by
  intro fuel
  induction fuel with
  | zero => intro st s hs; exact Or.inl hs
  | succ n ih =>
    intro st s hs
    rw [padLoop] at hs
    rcases ih _ s hs with h1 | h2
    · rcases List.mem_append.mp h1 with h3 | h4
      · exact Or.inl h3
      · have h5 := List.mem_singleton.mp h4
        subst h5
        exact Or.inr ⟨st.k, ⟨_, rfl⟩, ⟨_, rfl⟩⟩
    · exact Or.inr h2

theorem computeMeshAreas_mesh_mem :
    ∀ (ms : List MeshQ) (mas : List MeshData), computeMeshAreas ms = .ok mas →
      ∀ md ∈ mas, md.mesh ∈ ms := by
  intro ms
  induction ms with
  | nil =>
    intro mas h md hmd
    rw [computeMeshAreas] at h
    cases h
    simp at hmd
  | cons m rest ih =>
    intro mas h md hmd
    rw [computeMeshAreas] at h
    cases hmp : m.positions with
    | none => rw [hmp] at h; cases h
    | some ps =>
      rw [hmp] at h
      cases hca : computeMeshAreas rest with
      | error e => rw [hca] at h; simp at h
      | ok tail =>
        rw [hca] at h
        simp only [Except.ok.injEq] at h
        subst h
        rcases List.mem_cons.mp hmd with h1 | h2
        · subst h1; exact List.mem_cons_self m rest
        · exact List.mem_cons_of_mem m (ih tail hca md h2)

theorem computeMeshAreas_ok_length :
    ∀ (ms : List MeshQ) (mas : List MeshData), computeMeshAreas ms = .ok mas →
      mas.length = ms.length := by
  intro ms
  induction ms with
  | nil =>
    intro mas h
    rw [computeMeshAreas] at h
    cases h
    rfl
  | cons m rest ih =>
    intro mas h
    rw [computeMeshAreas] at h
    cases hmp : m.positions with
    | none => rw [hmp] at h; cases h
    | some ps =>
      rw [hmp] at h
      cases hca : computeMeshAreas rest with
      | error e => rw [hca] at h; simp at h
      | ok tail =>
        rw [hca] at h
        simp only [Except.ok.injEq] at h
        subst h
        simp [ih tail hca]

theorem size_bounds (r ps : ℚ) (h0 : 0 ≤ r) (h1 : r < 1) (hps : 0 ≤ ps) :
    0.7 * ps ≤ ps * (0.7 + r * 0.6) ∧ ps * (0.7 + r * 0.6) ≤ 1.3 * ps := by
  constructor <;> nlinarith

theorem channel_bounds (r b : ℚ) (h0 : 0 ≤ r) (h1 : r < 1) (hb : 0 ≤ b) :
    0.8 * b ≤ (0.8 + r * 0.4) * b ∧ (0.8 + r * 0.4) * b ≤ 1.2 * b := by
  constructor <;> nlinarith

/-- Modelled from the spec: the claim's per-channel constraint, the interval
`[0.8·base, 1.2·base]` clamped to the valid channel range `[0, 1]`. -/
def specClampedChannel (base c : ℚ) : Prop :=
  max (0.8 * base) 0 ≤ c ∧ c ≤ min (1.2 * base) 1

/-- Claim C8 amended: every sample's size lies in
`[0.7·pointSize, 1.3·pointSize]` and every colour channel equals the source
mesh's base channel times a factor in `[0.8, 1.2)` — so it lies in
`[0.8·base, 1.2·base]`, but no clamping to the valid channel range is ever
applied (the counterexample produces the out-of-range channel 1.1). -/
theorem C8_amended (obj : ObjQ) (opts : SkinOptions) (rand : ℕ → ℚ) (oracle : RayOracle)
    (hr : ∀ n, 0 ≤ rand n ∧ rand n < 1)
    (hps : 0 ≤ opts.pointSize)
    (hcol : ∀ m ∈ obj.meshes, 0 ≤ (meshColorOf opts.color m).r ∧
      0 ≤ (meshColorOf opts.color m).g ∧ 0 ≤ (meshColorOf opts.color m).b) :
    ∀ pc, createPointCloudSkin obj opts rand oracle = .ok (some pc) →
      ∀ s ∈ pc.samples,
        (0.7 * opts.pointSize ≤ s.size ∧ s.size ≤ 1.3 * opts.pointSize) ∧
        ∃ m ∈ obj.meshes,
          (0.8 * (meshColorOf opts.color m).r ≤ s.color.r ∧
            s.color.r ≤ 1.2 * (meshColorOf opts.color m).r) ∧
          (0.8 * (meshColorOf opts.color m).g ≤ s.color.g ∧
            s.color.g ≤ 1.2 * (meshColorOf opts.color m).g) ∧
          (0.8 * (meshColorOf opts.color m).b ≤ s.color.b ∧
            s.color.b ≤ 1.2 * (meshColorOf opts.color m).b) := by
  intro pc hpc s hs
  rw [createPointCloudSkin] at hpc
  by_cases hm : obj.meshes.length = 0
  · rw [if_pos hm] at hpc
    cases hpc
  rw [if_neg hm] at hpc
  cases hca : computeMeshAreas obj.meshes with
  | error e => rw [hca] at hpc; cases hpc
  | ok mas =>
    rw [hca] at hpc
    simp only [Except.ok.injEq, Option.some.injEq] at hpc
    subst hpc
    have hmemmesh := computeMeshAreas_mesh_mem obj.meshes mas hca
    have hmaslen : mas ≠ [] := by
      intro hnil
      have := computeMeshAreas_ok_length obj.meshes mas hca
      rw [hnil] at this
      simp at this
      omega
    -- the emitted sample came either from a mesh pass or from padding
    have hshape : ∃ m ∈ obj.meshes,
        emittedShape rand opts.pointSize (meshColorOf opts.color m) s := by
      simp only at hs
      rcases padLoop_shape rand opts mas _ _ s hs with h1 | h2
      · rw [prePadState] at h1
        rcases meshLoop_shape rand oracle opts _ mas _ s h1 with h3 | h4
        · simp at h3
        · obtain ⟨md, hmd, hsh⟩ := h4
          exact ⟨md.mesh, hmemmesh md hmd, hsh⟩
      · obtain ⟨kp, hsh⟩ := h2
        have hlt : (Int.floor (rand kp * (mas.length : ℚ))).toNat < mas.length := by
          have hlen1 : 1 ≤ mas.length := by
            cases mas with
            | nil => exact absurd rfl hmaslen
            | cons a t => simp
          have hq : rand kp * (mas.length : ℚ) < (mas.length : ℚ) := by
            have := (hr kp).2
            have h0 := (hr kp).1
            have hpos : (0 : ℚ) < (mas.length : ℚ) := by exact_mod_cast hlen1
            nlinarith
          have hfl : Int.floor (rand kp * (mas.length : ℚ)) < (mas.length : ℤ) := by
            rw [Int.floor_lt]
            exact_mod_cast hq
          omega
        have hmem : mas.getD ((Int.floor (rand kp * (mas.length : ℚ))).toNat) default ∈ mas := by
          rw [List.getD_eq_getElem?_getD, List.getElem?_eq_getElem hlt]
          simp only [Option.getD_some]
          exact List.getElem_mem hlt
        exact ⟨_, hmemmesh _ hmem, hsh⟩
    obtain ⟨m, hmmem, ⟨⟨k1, hsz⟩, ⟨k2, hcolr⟩⟩⟩ := hshape
    obtain ⟨hc1, hc2, hc3⟩ := hcol m hmmem
    constructor
    · rw [hsz]
      exact size_bounds (rand k1) opts.pointSize (hr k1).1 (hr k1).2 hps
    · refine ⟨m, hmmem, ?_, ?_, ?_⟩
      · rw [hcolr]
        simp only [ColorQ_scale_r]
        exact channel_bounds (rand k2) _ (hr k2).1 (hr k2).2 hc1
      · rw [hcolr]
        simp only [ColorQ_scale_g]
        exact channel_bounds (rand k2) _ (hr k2).1 (hr k2).2 hc2
      · rw [hcolr]
        simp only [ColorQ_scale_b]
        exact channel_bounds (rand k2) _ (hr k2).1 (hr k2).2 hc3

/-- Options requesting one point of size 1. -/
def opts1 : SkinOptions := ⟨1, 1, 0, none, 1⟩

/-- The constant stream 3/4 (a valid `Math.random` value). -/
def rand34 : ℕ → ℚ := fun _ => 3 / 4

/-- The single sample `createPointCloudSkin obj1 opts1 rand34 oracle0`
emits: a padding point of the white mesh, colour factor
`0.8 + 0.75·0.4 = 1.1`, size factor `0.7 + 0.75·0.6 = 1.15`. -/
def sample1 : Sample := ⟨⟨0, 0, 0⟩, ⟨11/10, 11/10, 11/10⟩, 23/20, ⟨1/2, 1/2, 1/2⟩⟩

/-- The corresponding whole output cloud. -/
def cloud1 : PointCloudQ := ⟨[sample1], ⟨0, 0, 0⟩, ⟨0, 0, 0⟩, ⟨1, 1, 1⟩⟩

theorem skin_eval_obj1 : createPointCloudSkin obj1 opts1 rand34 oracle0 = .ok (some cloud1) := by
  rw [createPointCloudSkin]
  norm_num [obj1, computeMeshAreas, mesh1, attrSize, attrCenter, listMax3, listMin3,
    prePadState, meshLoop, meshStep, surfaceLoop, vertexLoop, padLoop, opts1, rand34,
    meshColorOf, whiteQ, ColorQ.scale, Q3.scale, oracle0, cloud1, sample1]

/-- Counterexample to claim C8 as stated: the sampler applies no clamping,
so a white base channel (base = 1) with draw 0.75 yields the stored channel
value 1.1, outside `[0.8·base, 1.2·base]` clamped to the valid range
`[0, 1]` (that is, outside `[0.8, 1]`). -/
theorem C8_counterexample :
    createPointCloudSkin obj1 opts1 rand34 oracle0 = .ok (some cloud1) ∧
    (meshColorOf opts1.color mesh1).r = 1 ∧
    sample1.color.r = 11/10 ∧
    ¬ specClampedChannel 1 (11/10) := by
  refine ⟨skin_eval_obj1, rfl, rfl, ?_⟩
  rw [specClampedChannel]
  push_neg
  intro _
  norm_num

/-- Witness for the amended C8: the concrete emitted sample obeys the
unclamped bounds. -/
theorem C8_amended_witness :
    (0.7 * opts1.pointSize ≤ sample1.size ∧ sample1.size ≤ 1.3 * opts1.pointSize) ∧
    ∃ m ∈ obj1.meshes,
      (0.8 * (meshColorOf opts1.color m).r ≤ sample1.color.r ∧
        sample1.color.r ≤ 1.2 * (meshColorOf opts1.color m).r) ∧
      (0.8 * (meshColorOf opts1.color m).g ≤ sample1.color.g ∧
        sample1.color.g ≤ 1.2 * (meshColorOf opts1.color m).g) ∧
      (0.8 * (meshColorOf opts1.color m).b ≤ sample1.color.b ∧
        sample1.color.b ≤ 1.2 * (meshColorOf opts1.color m).b) :=
  C8_amended obj1 opts1 rand34 oracle0
    (fun _ => ⟨by norm_num [rand34], by norm_num [rand34]⟩)
    (by norm_num [opts1])
    (by
      intro m hm
      simp only [obj1, List.mem_singleton] at hm
      subst hm
      norm_num [meshColorOf, opts1, mesh1, whiteQ])
    cloud1 skin_eval_obj1 sample1 (by simp [cloud1])

/-! ## Claim C10: the output count is exactly the requested count -/

/-- Claim C10: for every object with at least one sub-mesh (whose meshes all
carry position data, otherwise the call throws and returns nothing), the
returned point cloud contains exactly `pointCount` points, never more. -/
theorem C10_exact_count (obj : ObjQ) (opts : SkinOptions) (rand : ℕ → ℚ)
    (oracle : RayOracle) (h1 : obj.meshes ≠ []) (h2 : ∀ m ∈ obj.meshes, m.positions ≠ none) :
    ∃ pc, createPointCloudSkin obj opts rand oracle = .ok (some pc) ∧
      pc.samples.length = opts.pointCount :=
  skin_count_eq obj opts rand oracle h1 h2

/-- Witness for C10 at a concrete one-mesh object. -/
theorem C10_exact_count_witness :
    ∃ pc, createPointCloudSkin obj1 opts0 rand0 oracle0 = .ok (some pc) ∧
      pc.samples.length = opts0.pointCount :=
  C10_exact_count obj1 opts0 rand0 oracle0 (by simp [obj1]) (by simp [obj1, mesh1])

/-! ## Placement-engine lemmas (ℝ side) -/

noncomputable section

open Classical

@[simp] theorem V3_add_mk (a b c d e f : ℝ) :
    (⟨a, b, c⟩ : V3) + ⟨d, e, f⟩ = ⟨a + d, b + e, c + f⟩ := rfl

@[simp] theorem V3_sub_mk (a b c d e f : ℝ) :
    (⟨a, b, c⟩ : V3) - ⟨d, e, f⟩ = ⟨a - d, b - e, c - f⟩ := rfl

@[simp] theorem V3_scale_mk (k a b c : ℝ) :
    V3.scale k ⟨a, b, c⟩ = ⟨k * a, k * b, k * c⟩ := rfl

@[simp] theorem V3_add_x (a b : V3) : (a + b).x = a.x + b.x := rfl

@[simp] theorem V3_add_y (a b : V3) : (a + b).y = a.y + b.y := rfl

@[simp] theorem V3_add_z (a b : V3) : (a + b).z = a.z + b.z := rfl

@[simp] theorem V3_sub_x (a b : V3) : (a - b).x = a.x - b.x := rfl

@[simp] theorem V3_sub_y (a b : V3) : (a - b).y = a.y - b.y := rfl

@[simp] theorem V3_sub_z (a b : V3) : (a - b).z = a.z - b.z := rfl

@[simp] theorem V3_scale_x (c : ℝ) (v : V3) : (V3.scale c v).x = c * v.x := rfl

@[simp] theorem V3_scale_y (c : ℝ) (v : V3) : (V3.scale c v).y = c * v.y := rfl

@[simp] theorem V3_scale_z (c : ℝ) (v : V3) : (V3.scale c v).z = c * v.z := rfl

theorem BoxR.getCenter_fromCenterAndSize (c s : V3) :
    (BoxR.fromCenterAndSize c s).getCenter = c := by
  cases c
  cases s
  simp only [BoxR.fromCenterAndSize, BoxR.getCenter, V3_scale_mk, V3_add_mk, V3_sub_mk,
    V3.mk.injEq]
  refine ⟨by ring, by ring, by ring⟩

theorem BoxR.getSize_fromCenterAndSize (c s : V3) :
    (BoxR.fromCenterAndSize c s).getSize = s := by
  cases c
  cases s
  simp only [BoxR.fromCenterAndSize, BoxR.getSize, V3_scale_mk, V3_add_mk, V3_sub_mk,
    V3.mk.injEq]
  refine ⟨by ring, by ring, by ring⟩

theorem objBox_center (p : PlacedPart) :
    (objBox p).getCenter = p.frag.geomCenter p.rot + p.pos := by
  rw [objBox, BoxR.getCenter_fromCenterAndSize]

theorem objBox_size (p : PlacedPart) : (objBox p).getSize = p.frag.geomSize p.rot := by
  rw [objBox, BoxR.getSize_fromCenterAndSize]

theorem V3.len_nonneg (v : V3) : 0 ≤ v.len := Real.sqrt_nonneg _

theorem V3.len_scale (c : ℝ) (v : V3) : (V3.scale c v).len = |c| * v.len := by
  rw [V3.len, V3.len, V3.scale]
  have h : (c * v.x) ^ 2 + (c * v.y) ^ 2 + (c * v.z) ^ 2 =
      c ^ 2 * (v.x ^ 2 + v.y ^ 2 + v.z ^ 2) := by ring
  rw [h, Real.sqrt_mul (sq_nonneg c), Real.sqrt_sq_eq_abs]

theorem V3.normalize_eq_scale (v : V3) :
    v.normalize = V3.scale (1 / (if v.len = 0 then 1 else v.len)) v := by
  cases v
  simp only [V3.normalize, V3_scale_mk, V3.mk.injEq]
  refine ⟨by ring, by ring, by ring⟩

theorem V3.scale_one (v : V3) : V3.scale 1 v = v := by
  cases v
  simp only [V3_scale_mk, V3.mk.injEq]
  refine ⟨by ring, by ring, by ring⟩

theorem V3.normalize_of_len_one (v : V3) (h : v.len = 1) : v.normalize = v := by
  rw [V3.normalize_eq_scale, h]
  rw [if_neg one_ne_zero]
  norm_num [V3.scale_one]

theorem len_e1 : (⟨1, 0, 0⟩ : V3).len = 1 := by
  rw [V3.len]
  norm_num

theorem V3_cancel (a b t : V3) : a + (b + (t - (a + b))) = t := by
  cases a
  cases b
  cases t
  simp only [V3_add_mk, V3_sub_mk, V3.mk.injEq]
  refine ⟨by ring, by ring, by ring⟩

theorem dist_add_scale (a : V3) (c : ℝ) (u : V3) : V3.dist (a + V3.scale c u) a = |c| * u.len := by
  rw [V3.dist]
  have h : (a + V3.scale c u) - a = V3.scale c u := by
    cases a
    cases u
    simp only [V3_scale_mk, V3_add_mk, V3_sub_mk, V3.mk.injEq]
    refine ⟨by ring, by ring, by ring⟩
  rw [h, V3.len_scale]

/-- Where the snapped object's box center lands: at the anchor's box center
plus `snapDistance` along the normalised direction. -/
theorem snap_center (newO exO : PlacedPart) (d : V3) (p : ℝ) :
    (objBox { newO with pos := calculateSnapPosition newO exO d p }).getCenter =
      (objBox exO).getCenter + V3.scale
        (dirProjection d.normalize (objBox newO).getSize +
          dirProjection d.normalize (objBox exO).getSize +
          p * ((dirProjection d.normalize (objBox newO).getSize +
            dirProjection d.normalize (objBox exO).getSize) / 2) * 1.5) d.normalize := by
  obtain ⟨f, r, pos, rot, sc⟩ := newO
  simp only [calculateSnapPosition, objBox_center, objBox_size]
  exact V3_cancel _ _ _

/-- The center-to-center separation the snap produces. -/
def snapSeparation (newO exO : PlacedPart) (d : V3) (p : ℝ) : ℝ :=
  V3.dist (objBox { newO with pos := calculateSnapPosition newO exO d p }).getCenter
    (objBox exO).getCenter

/-- For a normalised direction the separation is the absolute value of the
signed snap distance `Sn + Se + p·((Sn + Se)/2)·1.5`. -/
theorem snapSeparation_eq (newO exO : PlacedPart) (d : V3) (p : ℝ) (hd : d.len = 1) :
    snapSeparation newO exO d p =
      |dirProjection d (objBox newO).getSize + dirProjection d (objBox exO).getSize +
        p * ((dirProjection d (objBox newO).getSize +
          dirProjection d (objBox exO).getSize) / 2) * 1.5| := by
  rw [snapSeparation, snap_center, dist_add_scale, V3.normalize_of_len_one d hd, hd, mul_one]

end

/-! ## Claim C2: monotonicity of the snap separation in the penetration -/

/-- Claim C2 amended: for a normalised direction, positive summed
projection, and penetration factors at least −4/3 (where the signed snap
distance stays nonnegative — all penetrations the module uses are in
[−0.3, −0.2]), a more negative penetration strictly decreases the
center-to-center separation.  Below −4/3 the absolute value folds back and
the monotonicity reverses, as the counterexample shows. -/
theorem C2_amended (newO exO : PlacedPart) (d : V3) (p1 p2 : ℝ)
    (hd : d.len = 1)
    (hS : 0 < dirProjection d (objBox newO).getSize + dirProjection d (objBox exO).getSize)
    (hp1 : -(4/3) ≤ p1) (h12 : p1 < p2) :
    snapSeparation newO exO d p1 < snapSeparation newO exO d p2 := by
  rw [snapSeparation_eq newO exO d p1 hd, snapSeparation_eq newO exO d p2 hd]
  set S := dirProjection d (objBox newO).getSize + dirProjection d (objBox exO).getSize with hS2
  have h1 : 0 ≤ S + p1 * (S / 2) * 1.5 := by nlinarith
  have h2 : 0 ≤ S + p2 * (S / 2) * 1.5 := by nlinarith
  rw [abs_of_nonneg h1, abs_of_nonneg h2]
  nlinarith

noncomputable section

open Classical

/-- A fragment whose world box is the unit cube about the origin. -/
def fragUnit : Fragment := ⟨fun _ => ⟨0, 0, 0⟩, fun _ => ⟨1, 1, 1⟩, ⟨1, 1, 1⟩⟩

/-- An anchor placed at the origin. -/
def cxAnchor : PlacedPart := ⟨fragUnit, .torso, ⟨0, 0, 0⟩, ⟨0, 0, 0⟩, ⟨1, 1, 1⟩⟩

/-- A unit-box object positioned at x = 5. -/
def cxNew : PlacedPart := ⟨fragUnit, .head, ⟨5, 0, 0⟩, ⟨0, 0, 0⟩, ⟨1, 1, 1⟩⟩

theorem cx_Sn : dirProjection ⟨1, 0, 0⟩ (objBox cxNew).getSize = 1 / 2 := by
  rw [objBox_size]
  norm_num [dirProjection, cxNew, fragUnit]

theorem cx_Se : dirProjection ⟨1, 0, 0⟩ (objBox cxAnchor).getSize = 1 / 2 := by
  rw [objBox_size]
  norm_num [dirProjection, cxAnchor, fragUnit]

/-- Counterexample to claim C2 as stated: at penetration factors
`p1 = −2 < p2 = −4/3` (fixed unit direction, fixed unit boxes) the
separation under the more negative `p1` is 1/2, strictly larger than the
0 separation under `p2` — the claimed strict decrease fails once the
signed snap distance crosses zero. -/
theorem C2_counterexample :
    ((-2 : ℝ) < -(4/3)) ∧
    snapSeparation cxNew cxAnchor ⟨1, 0, 0⟩ (-(4/3)) <
      snapSeparation cxNew cxAnchor ⟨1, 0, 0⟩ (-2) := by
  have h1 : snapSeparation cxNew cxAnchor ⟨1, 0, 0⟩ (-(4/3)) = 0 := by
    rw [snapSeparation_eq _ _ _ _ len_e1, cx_Sn, cx_Se, abs_eq_zero]
    norm_num
  have h2 : snapSeparation cxNew cxAnchor ⟨1, 0, 0⟩ (-2) = 1/2 := by
    rw [snapSeparation_eq _ _ _ _ len_e1, cx_Sn, cx_Se,
      abs_eq (by norm_num : (0:ℝ) ≤ 1/2)]
    norm_num
  rw [h1, h2]
  norm_num

/-- Witness for the amended C2 at the module's own penetration values. -/
theorem C2_amended_witness :
    snapSeparation cxNew cxAnchor ⟨1, 0, 0⟩ (-0.3) <
      snapSeparation cxNew cxAnchor ⟨1, 0, 0⟩ (-0.25) :=
  C2_amended cxNew cxAnchor ⟨1, 0, 0⟩ (-0.3) (-0.25) len_e1
    (by rw [cx_Sn, cx_Se]; norm_num) (by norm_num) (by norm_num)

/-! ## Claim C3: the snap-distance formula -/

/-- Modelled from the spec sentence behind claim C3: the desired separation
computed as the sum of the two projections MINUS
`penetrationFactor × averageProjection × 1.5`. The code adds that term
instead (part_006 line 564). -/
def snapSeparationSpec (newO exO : PlacedPart) (d : V3) (p : ℝ) : ℝ :=
  dirProjection d.normalize (objBox newO).getSize +
    dirProjection d.normalize (objBox exO).getSize -
    p * ((dirProjection d.normalize (objBox newO).getSize +
      dirProjection d.normalize (objBox exO).getSize) / 2) * 1.5

/-- Counterexample to claim C3 as stated: with unit boxes, direction
`(1,0,0)` and penetration −0.2, the code places the new box center at
x = 0.85 (it adds `p·avg·1.5`), while the claimed formula (subtracting
that term) would place it at x = 1.15. -/
theorem C3_counterexample :
    (objBox { cxNew with pos := calculateSnapPosition cxNew cxAnchor ⟨1, 0, 0⟩ (-0.2) }).getCenter
        = (⟨0.85, 0, 0⟩ : V3) ∧
    (objBox cxAnchor).getCenter + V3.scale (snapSeparationSpec cxNew cxAnchor ⟨1, 0, 0⟩ (-0.2))
        ((⟨1, 0, 0⟩ : V3).normalize) = (⟨1.15, 0, 0⟩ : V3) ∧
    (⟨0.85, 0, 0⟩ : V3) ≠ (⟨1.15, 0, 0⟩ : V3) := by
  have hnorm : (⟨1, 0, 0⟩ : V3).normalize = ⟨1, 0, 0⟩ := V3.normalize_of_len_one _ len_e1
  have hac : (objBox cxAnchor).getCenter = (⟨0, 0, 0⟩ : V3) := by
    rw [objBox_center]
    norm_num [cxAnchor, fragUnit]
  refine ⟨?_, ?_, ?_⟩
  · rw [snap_center, hnorm, cx_Sn, cx_Se, hac]
    norm_num [V3.mk.injEq]
  · rw [snapSeparationSpec, hnorm, cx_Sn, cx_Se, hac]
    norm_num [V3.mk.injEq]
  · simp only [ne_eq, V3.mk.injEq]
    norm_num

/-- Claim C3 amended: the snap computes the desired separation as the sum
of the two projections PLUS `penetrationFactor × averageProjection × 1.5`
(a negative factor shortens it), returns the object position that puts the
new box center at exactly that signed separation from the anchor box
center along the normalised direction, and for a unit direction the
center-to-center distance equals the absolute value of that separation. -/
theorem C3_amended (newO exO : PlacedPart) (d : V3) (p : ℝ) :
    ((objBox { newO with pos := calculateSnapPosition newO exO d p }).getCenter =
      (objBox exO).getCenter + V3.scale
        (dirProjection d.normalize (objBox newO).getSize +
          dirProjection d.normalize (objBox exO).getSize +
          p * ((dirProjection d.normalize (objBox newO).getSize +
            dirProjection d.normalize (objBox exO).getSize) / 2) * 1.5) d.normalize) ∧
    (d.len = 1 →
      snapSeparation newO exO d p =
        |dirProjection d (objBox newO).getSize + dirProjection d (objBox exO).getSize +
          p * ((dirProjection d (objBox newO).getSize +
            dirProjection d (objBox exO).getSize) / 2) * 1.5|) :=
  ⟨snap_center newO exO d p, snapSeparation_eq newO exO d p⟩

/-- Witness for the amended C3 at the concrete unit-box configuration. -/
theorem C3_amended_witness :
    ((objBox { cxNew with pos := calculateSnapPosition cxNew cxAnchor ⟨1, 0, 0⟩ (-0.2) }).getCenter =
      (objBox cxAnchor).getCenter + V3.scale
        (dirProjection (⟨1, 0, 0⟩ : V3).normalize (objBox cxNew).getSize +
          dirProjection (⟨1, 0, 0⟩ : V3).normalize (objBox cxAnchor).getSize +
          (-0.2) * ((dirProjection (⟨1, 0, 0⟩ : V3).normalize (objBox cxNew).getSize +
            dirProjection (⟨1, 0, 0⟩ : V3).normalize (objBox cxAnchor).getSize) / 2) * 1.5)
        (⟨1, 0, 0⟩ : V3).normalize) ∧
    snapSeparation cxNew cxAnchor ⟨1, 0, 0⟩ (-0.2) =
      |dirProjection ⟨1, 0, 0⟩ (objBox cxNew).getSize +
        dirProjection ⟨1, 0, 0⟩ (objBox cxAnchor).getSize +
        (-0.2) * ((dirProjection ⟨1, 0, 0⟩ (objBox cxNew).getSize +
          dirProjection ⟨1, 0, 0⟩ (objBox cxAnchor).getSize) / 2) * 1.5| :=
  ⟨(C3_amended cxNew cxAnchor ⟨1, 0, 0⟩ (-0.2)).1,
   (C3_amended cxNew cxAnchor ⟨1, 0, 0⟩ (-0.2)).2 len_e1⟩

/-! ## Claim C5: the shuffle -/

theorem shuffleGo_zero {α : Type} [Inhabited α] (rand : ℕ → ℝ) (k : ℕ) (l : List α) :
    shuffleGo rand k 0 l = l := rfl

theorem shuffleGo_one {α : Type} [Inhabited α] (rand : ℕ → ℝ) (k : ℕ) (l : List α) :
    shuffleGo rand k 1 l = l := rfl

theorem shuffleGo_step {α : Type} [Inhabited α] (rand : ℕ → ℝ) (k m : ℕ) (l : List α) :
    shuffleGo rand k (m + 2) l = shuffleGo rand (k + 1) (m + 1)
      (swapIdx l (m + 2) ((Int.floor (rand k * (((m + 2 : ℕ) : ℝ) - 1))).toNat + 1)) := rfl

/-- Claim C5, the code defect: for every valid random stream the draw at
step `i` is `floor(random·(i−1)) + 1 ∈ [1, i−1]` — not `[1, i]` as the
source comment states — so position `i` always swaps away and the shuffle
of a 3-element list is the constant `[a, c, b]`: the identity permutation
of the tail (and hence "every permutation") is unreachable. -/
theorem C5_shuffle_constant (rand : ℕ → ℝ) (k : ℕ)
    (h : ∀ n, 0 ≤ rand n ∧ rand n < 1) :
    shuffleTail rand k [0, 1, 2] = ([0, 2, 1] : List ℕ) := by
  have hfl : Int.floor (rand k * (((0 + 2 : ℕ) : ℝ) - 1)) = 0 := by
    have hc : (((0 + 2 : ℕ) : ℝ) - 1) = 1 := by push_cast; ring
    rw [hc, mul_one]
    exact Int.floor_eq_zero_iff.mpr ⟨(h k).1, (h k).2⟩
  have hlen : ([0, 1, 2] : List ℕ).length - 1 = 0 + 2 := rfl
  rw [shuffleTail, hlen, shuffleGo_step, hfl]
  have hswap : swapIdx ([0, 1, 2] : List ℕ) (0 + 2) ((0 : ℤ).toNat + 1) = [0, 2, 1] := by decide
  rw [hswap, shuffleGo_one]

/-- Witness for the C5 defect at a concrete stream. -/
theorem C5_shuffle_constant_witness :
    shuffleTail (fun _ => (1/2 : ℝ)) 1 [0, 1, 2] = ([0, 2, 1] : List ℕ) :=
  C5_shuffle_constant (fun _ => 1/2) 1 (fun _ => ⟨by norm_num, by norm_num⟩)

/-! ## Position-only mutation: everything except `pos` is preserved -/

/-- The fields of a placed part that no mutation of the module ever
writes: fragment, role, rotation as placed, and the cloned scale. -/
def partKey (p : PlacedPart) : Fragment × Role × V3 × V3 := (p.frag, p.role, p.rot, p.scaleV)

theorem adjustIter_key (ex : List PlacedPart) (ip d : V3) (pen : ℝ) :
    ∀ (fuel : ℕ) (o : PlacedPart), partKey (adjustIter ex ip d pen fuel o) = partKey o := by
  intro fuel
  induction fuel with
  | zero => intro o; rfl
  | succ n ih =>
    intro o
    simp only [adjustIter]
    by_cases h : (collideScan o ex d pen ip).1 = true
    · rw [if_pos h]
      cases hb : (collideScan o ex d pen ip).2 with
      | some best => exact (ih _).trans rfl
      | none => exact (ih _).trans rfl
    · rw [if_neg h]

theorem adjust_key (o : PlacedPart) (l : List PlacedPart) (ip d : V3) (pen : ℝ) :
    partKey (adjustPositionToAvoidCollision o l ip d pen) = partKey o := by
  cases l with
  | nil => rfl
  | cons a t => exact (adjustIter_key (a :: t) ip d pen 8 _).trans rfl

theorem adjust_role (o : PlacedPart) (l : List PlacedPart) (ip d : V3) (pen : ℝ) :
    (adjustPositionToAvoidCollision o l ip d pen).role = o.role :=
  congrArg (fun q => q.2.1) (adjust_key o l ip d pen)

theorem contactLoop_key (nearest : PlacedPart) (d : V3) :
    ∀ (attempt fuel : ℕ) (o : PlacedPart),
      partKey (contactLoop nearest d attempt fuel o) = partKey o := by
  intro attempt fuel
  induction fuel generalizing attempt with
  | zero => intro o; rfl
  | succ n ih =>
    intro o
    simp only [contactLoop]
    split
    · rfl
    · exact (ih _ _).trans rfl

theorem ensureContact_key (obj : PlacedPart) (others : List PlacedPart) :
    partKey (ensureContact obj others) = partKey obj := by
  cases others with
  | nil => rfl
  | cons a t =>
    have hred : ensureContact obj (a :: t) =
        if ∃ o ∈ a :: t, checkContact obj o 0.90 then obj
        else
          match nearestOther obj (a :: t) with
          | none => obj
          | some nearest => contactLoop nearest (getDirectionToObject obj nearest) 0 15 obj :=
      rfl
    rw [hred]
    split
    · rfl
    · cases hn : nearestOther obj (a :: t) with
      | none => rfl
      | some nearest => exact contactLoop_key _ _ _ _ _

theorem list_map_set {α β : Type} (f : α → β) :
    ∀ (l : List α) (i : ℕ) (x : α), (l.set i x).map f = (l.map f).set i (f x) := by
  intro l
  induction l with
  | nil => intro i x; rfl
  | cons a t ih =>
    intro i x
    cases i with
    | zero => rfl
    | succ n => simp [List.set, ih]

theorem list_set_self {β : Type} :
    ∀ (l : List β) (i : ℕ) (b : β), l.get? i = some b → l.set i b = l := by
  intro l
  induction l with
  | nil => intro i b h; cases h
  | cons a t ih =>
    intro i b h
    cases i with
    | zero =>
      simp only [List.get?] at h
      cases h
      rfl
    | succ n =>
      simp only [List.get?] at h
      simp [List.set, ih n b h]

theorem ensureContactAt_keys (l : List PlacedPart) (i : ℕ) (others : List PlacedPart) :
    (ensureContactAt l i others).map partKey = l.map partKey := by
  rw [ensureContactAt]
  cases hg : l.get? i with
  | none => rfl
  | some obj =>
    rw [list_map_set, ensureContact_key]
    apply list_set_self
    rw [List.get?_map, hg]
    rfl

theorem contactPass1_keys :
    ∀ (fuel i : ℕ) (l : List PlacedPart),
      (contactPass1 i fuel l).map partKey = l.map partKey := by
  intro fuel
  induction fuel with
  | zero => intro i l; rfl
  | succ n ih =>
    intro i l
    rw [contactPass1, ih, ensureContactAt_keys]

theorem sideReinforce_keys (idxs : List ℕ) :
    ∀ (fuel k : ℕ) (l : List PlacedPart),
      (sideReinforce idxs k fuel l).map partKey = l.map partKey := by
  intro fuel
  induction fuel with
  | zero => intro k l; rfl
  | succ n ih =>
    intro k l
    rw [sideReinforce, ih, ensureContactAt_keys]

theorem reinforceGroups_keys (cond : PlacedPart → Prop) (l : List PlacedPart) :
    (reinforceGroups cond l).map partKey = l.map partKey := by
  rw [reinforceGroups]
  split
  · split
    · rw [sideReinforce_keys, sideReinforce_keys]
    · rw [sideReinforce_keys]
  · split
    · rw [sideReinforce_keys]
    · rfl

theorem ensureAll_keys (l : List PlacedPart) :
    (ensureAllFragmentsContact l).map partKey = l.map partKey := by
  rw [ensureAllFragmentsContact]
  split
  · rfl
  · rw [reinforceGroups_keys, reinforceGroups_keys, contactPass1_keys]

theorem synthesize_keys (frags : List FragEntry) (rand : ℕ → ℝ) :
    (synthesizeCreature frags rand).placed.map partKey =
      (assemblePlaced frags rand).map partKey := by
  rw [synthesizeCreature]
  split
  · rw [ensureAll_keys]
  · rfl

/-! ## Role counting -/

/-- Occurrences of a role among a list of roles. -/
def countR (r : Role) (rs : List Role) : ℕ := (rs.filter (fun x => decide (x = r))).length

/-- Occurrences of a role among the placed parts. -/
def countRole (r : Role) (l : List PlacedPart) : ℕ :=
  (l.filter (fun p => decide (p.role = r))).length

theorem countRole_eq_countR (r : Role) (l : List PlacedPart) :
    countRole r l = countR r (l.map PlacedPart.role) := by
  rw [countRole, countR, List.filter_map, List.length_map]
  rfl

theorem roles_of_keys (l l' : List PlacedPart) (h : l.map partKey = l'.map partKey) :
    l.map PlacedPart.role = l'.map PlacedPart.role := by
  have h2 := congrArg (List.map (fun q : Fragment × Role × V3 × V3 => q.2.1)) h
  rw [List.map_map, List.map_map] at h2
  exact h2

theorem countR_append (r : Role) (a b : List Role) :
    countR r (a ++ b) = countR r a + countR r b := by
  simp [countR, List.filter_append]

theorem countR_cons (r x : Role) (rs : List Role) :
    countR r (x :: rs) = (if x = r then 1 else 0) + countR r rs := by
  rw [countR, countR, List.filter_cons]
  by_cases h : x = r
  · simp [h]
    omega
  · simp [h]

theorem countR_replicate (r r' : Role) (n : ℕ) :
    countR r (List.replicate n r') = if r' = r then n else 0 := by
  induction n with
  | zero => simp [countR]
  | succ m ih =>
    rw [List.replicate_succ, countR_cons, ih]
    by_cases h : r' = r
    · simp [h]
      omega
    · simp [h]

/-! ## Per-stage role lists -/

theorem placeWingSide_roles (isLeft : Bool) (ws : ℝ) :
    ∀ (fs : List Fragment) (idx : ℕ) (placed : List PlacedPart),
      (placeWingSide isLeft ws fs idx placed).map PlacedPart.role =
        placed.map PlacedPart.role ++ List.replicate fs.length Role.wing := by
  intro fs
  induction fs with
  | nil => intro idx placed; simp [placeWingSide]
  | cons w rest ih =>
    intro idx placed
    rw [placeWingSide, ih]
    simp only [List.map_append, List.map_cons, List.map_nil, List.length_cons,
      List.replicate_succ, adjust_role]
    simp [mkPlaced, List.append_assoc]

theorem placeFootSide_roles (isLeft : Bool) (by0 : ℝ) :
    ∀ (fs : List Fragment) (idx : ℕ) (placed : List PlacedPart),
      (placeFootSide isLeft by0 fs idx placed).map PlacedPart.role =
        placed.map PlacedPart.role ++ List.replicate fs.length Role.foot := by
  intro fs
  induction fs with
  | nil => intro idx placed; simp [placeFootSide]
  | cons f rest ih =>
    intro idx placed
    rw [placeFootSide, ih]
    simp only [List.map_append, List.map_cons, List.map_nil, List.length_cons,
      List.replicate_succ, adjust_role]
    simp [mkPlaced, List.append_assoc]

theorem placeChestStage_roles (parts : PartsB) :
    (placeChestStage parts).1.map PlacedPart.role =
      (match parts.chest with | some _ => [Role.torso] | none => []) := by
  cases hc : parts.chest with
  | none => simp [placeChestStage, hc]
  | some c => simp [placeChestStage, hc, mkPlaced]

theorem placeHeadStage_roles (parts : PartsB) (ch : ℝ) (placed : List PlacedPart) :
    (placeHeadStage parts ch placed).map PlacedPart.role =
      placed.map PlacedPart.role ++
        (match parts.head with | some _ => [Role.head] | none => []) := by
  cases hh : parts.head with
  | none => simp [placeHeadStage, hh]
  | some h => simp [placeHeadStage, hh, adjust_role, mkPlaced]

theorem placeBellyStage_roles (parts : PartsB) (ch : ℝ) (placed : List PlacedPart) :
    (placeBellyStage parts ch placed).map PlacedPart.role =
      placed.map PlacedPart.role ++
        (match parts.belly with | some _ => [Role.belly] | none => []) := by
  cases hb : parts.belly with
  | none => simp [placeBellyStage, hb]
  | some b => simp [placeBellyStage, hb, adjust_role, mkPlaced]

theorem placeTailStage_roles (parts : PartsB) (ch : ℝ) (placed : List PlacedPart) :
    (placeTailStage parts ch placed).map PlacedPart.role =
      placed.map PlacedPart.role ++
        (match parts.tail with | some _ => [Role.tail] | none => []) := by
  cases ht : parts.tail with
  | none => simp [placeTailStage, ht]
  | some t => simp [placeTailStage, ht, adjust_role, mkPlaced]

theorem placeWingsStage_roles (parts : PartsB) (placed : List PlacedPart) :
    (placeWingsStage parts placed).map PlacedPart.role =
      placed.map PlacedPart.role ++
        List.replicate ((mirrorSides parts.wings).1.length +
          (mirrorSides parts.wings).2.length) Role.wing := by
  cases hw : parts.wings with
  | nil => simp [placeWingsStage, hw, mirrorSides, evenIdx, oddIdx]
  | cons w ws =>
    simp only [placeWingsStage, hw]
    rw [placeWingSide_roles, placeWingSide_roles, List.append_assoc, ← List.replicate_add]

theorem placeFeetStage_roles (parts : PartsB) (ch : ℝ) (placed : List PlacedPart) :
    (placeFeetStage parts ch placed).map PlacedPart.role =
      placed.map PlacedPart.role ++
        List.replicate ((mirrorSides parts.feet).1.length +
          (mirrorSides parts.feet).2.length) Role.foot := by
  cases hf : parts.feet with
  | nil => simp [placeFeetStage, hf, mirrorSides, evenIdx, oddIdx]
  | cons f fs =>
    simp only [placeFeetStage, hf]
    rw [placeFootSide_roles, placeFootSide_roles, List.append_assoc, ← List.replicate_add]

/-- The role multiset the assembly produces, read off the part buckets. -/
def rolesOfParts (parts : PartsB) : List Role :=
  (match parts.chest with | some _ => [Role.torso] | none => []) ++
  (match parts.head with | some _ => [Role.head] | none => []) ++
  (match parts.belly with | some _ => [Role.belly] | none => []) ++
  List.replicate ((mirrorSides parts.wings).1.length +
    (mirrorSides parts.wings).2.length) Role.wing ++
  (match parts.tail with | some _ => [Role.tail] | none => []) ++
  List.replicate ((mirrorSides parts.feet).1.length +
    (mirrorSides parts.feet).2.length) Role.foot

theorem assemblePlaced_roles (frags : List FragEntry) (rand : ℕ → ℝ) (h : frags ≠ []) :
    (assemblePlaced frags rand).map PlacedPart.role =
      rolesOfParts (assignParts (shuffleTail rand 1 frags)) := by
  cases frags with
  | nil => exact absurd rfl h
  | cons e rest =>
    simp only [assemblePlaced]
    rw [placeFeetStage_roles, placeTailStage_roles, placeWingsStage_roles,
      placeBellyStage_roles, placeHeadStage_roles, placeChestStage_roles]
    rw [rolesOfParts]

/-! ## Shuffle and role-assignment facts -/

theorem swapIdx_length {α : Type} [Inhabited α] (l : List α) (i j : ℕ) :
    (swapIdx l i j).length = l.length := by
  simp [swapIdx]

theorem shuffleGo_length {α : Type} [Inhabited α] (rand : ℕ → ℝ) :
    ∀ (i k : ℕ) (l : List α), (shuffleGo rand k i l).length = l.length := by
  intro i
  induction i with
  | zero => intro k l; rfl
  | succ m ih =>
    intro k l
    cases m with
    | zero => rfl
    | succ m2 =>
      rw [shuffleGo_step, ih, swapIdx_length]

theorem shuffleTail_length {α : Type} [Inhabited α] (rand : ℕ → ℝ) (k : ℕ) (l : List α) :
    (shuffleTail rand k l).length = l.length := by
  rw [shuffleTail, shuffleGo_length]

theorem mirrorSides_singleton (f : Fragment) : mirrorSides [f] = ([f], [f]) := rfl

theorem assignParts_tail_isSome (s : List FragEntry)
    (h : 2 < s.length - min 3 s.length) : ((assignParts s).tail).isSome = true := by
  have hr : reservedForTailAndFeet (s.length - min 3 s.length) = 2 := by
    rw [reservedForTailAndFeet, if_pos h]
  have hidx : min 3 s.length +
      (s.length - min 3 s.length - reservedForTailAndFeet (s.length - min 3 s.length)) <
      s.length := by
    rw [hr]
    omega
  obtain ⟨e, he⟩ : ∃ e, s.get? (min 3 s.length +
      (s.length - min 3 s.length - reservedForTailAndFeet (s.length - min 3 s.length))) =
      some e := ⟨_, List.get?_eq_get hidx⟩
  simp only [assignParts]
  rw [if_pos (by rw [hr] : 2 ≤ reservedForTailAndFeet (s.length - min 3 s.length))]
  rw [he]
  rfl

theorem assignParts_tail_none (s : List FragEntry)
    (h : s.length - min 3 s.length ≤ 2) : (assignParts s).tail = none := by
  have hr : reservedForTailAndFeet (s.length - min 3 s.length) ≤ 1 := by
    rw [reservedForTailAndFeet]
    split_ifs <;> omega
  simp only [assignParts]
  rw [if_neg (by omega)]

theorem assignParts_feet_single (s : List FragEntry)
    (h : 0 < s.length - min 3 s.length) : ∃ f, (assignParts s).feet = [f] := by
  have hidx : (if 2 ≤ reservedForTailAndFeet (s.length - min 3 s.length) ∧
      min 3 s.length + (s.length - min 3 s.length -
        reservedForTailAndFeet (s.length - min 3 s.length)) < s.length
      then min 3 s.length + (s.length - min 3 s.length -
        reservedForTailAndFeet (s.length - min 3 s.length)) + 1
      else min 3 s.length + (s.length - min 3 s.length -
        reservedForTailAndFeet (s.length - min 3 s.length))) = s.length - 1 := by
    rw [reservedForTailAndFeet]
    split_ifs <;> omega
  obtain ⟨e, he⟩ : ∃ e, s.get? (s.length - 1) = some e :=
    ⟨_, List.get?_eq_get (by omega)⟩
  simp only [assignParts]
  rw [hidx, he]
  exact ⟨e.fragment, rfl⟩

theorem countR_rolesOfParts_tail (parts : PartsB) :
    countR .tail (rolesOfParts parts) =
      (match parts.tail with | some _ => 1 | none => 0) := by
  rw [rolesOfParts]
  repeat rw [countR_append]
  cases parts.chest <;> cases parts.head <;> cases parts.belly <;> cases parts.tail <;>
    simp [countR, countR_cons, countR_replicate]

theorem countR_rolesOfParts_foot (parts : PartsB) :
    countR .foot (rolesOfParts parts) =
      (mirrorSides parts.feet).1.length + (mirrorSides parts.feet).2.length := by
  rw [rolesOfParts]
  repeat rw [countR_append]
  cases parts.chest <;> cases parts.head <;> cases parts.belly <;> cases parts.tail <;>
    simp [countR, countR_cons, countR_replicate]

theorem countRole_synthesize (frags : List FragEntry) (rand : ℕ → ℝ) (h : frags ≠ [])
    (r : Role) :
    countRole r (synthesizeCreature frags rand).placed =
      countR r (rolesOfParts (assignParts (shuffleTail rand 1 frags))) := by
  rw [countRole_eq_countR,
    roles_of_keys _ _ (synthesize_keys frags rand),
    assemblePlaced_roles frags rand h]

/-! ## Claim C4: the reserve rule and the tail/foot roles -/

/-- Claim C4: with `R` the fragments remaining after torso, head and belly,
the reserve is 2 for `R > 2`, 1 for `0 < R ≤ 2`, 0 for `R = 0`; with
reserve 2 exactly one tail role is assigned and the single foot is mirrored
into exactly two placed feet; with reserve 1 the feet exist (again two
placed, mirrored) and no tail role is assigned. -/
theorem C4_reserve_roles (frags : List FragEntry) (rand : ℕ → ℝ) :
    (reservedForTailAndFeet (frags.length - min 3 frags.length) =
      (if 2 < frags.length - min 3 frags.length then 2
       else if 0 < frags.length - min 3 frags.length then 1 else 0)) ∧
    (2 < frags.length - min 3 frags.length →
      countRole .tail (synthesizeCreature frags rand).placed = 1 ∧
      countRole .foot (synthesizeCreature frags rand).placed = 2) ∧
    (reservedForTailAndFeet (frags.length - min 3 frags.length) = 1 →
      countRole .foot (synthesizeCreature frags rand).placed = 2 ∧
      countRole .tail (synthesizeCreature frags rand).placed = 0) := by
  refine ⟨rfl, ?_, ?_⟩
  · intro h
    have hne : frags ≠ [] := by
      intro hnil
      rw [hnil] at h
      simp at h
    have hlen : (shuffleTail rand 1 frags).length = frags.length :=
      shuffleTail_length rand 1 frags
    have hR : 2 < (shuffleTail rand 1 frags).length -
        min 3 (shuffleTail rand 1 frags).length := by
      rw [hlen]
      exact h
    constructor
    · rw [countRole_synthesize frags rand hne, countR_rolesOfParts_tail]
      obtain ⟨t, ht⟩ := Option.isSome_iff_exists.mp
        (assignParts_tail_isSome (shuffleTail rand 1 frags) hR)
      simp only [ht]
    · rw [countRole_synthesize frags rand hne, countR_rolesOfParts_foot]
      obtain ⟨f, hf⟩ := assignParts_feet_single (shuffleTail rand 1 frags) (by omega)
      rw [hf, mirrorSides_singleton]
      rfl
  · intro h
    have hfacts : 0 < frags.length - min 3 frags.length ∧
        frags.length - min 3 frags.length ≤ 2 := by
      rw [reservedForTailAndFeet] at h
      split_ifs at h <;> omega
    have hne : frags ≠ [] := by
      intro hnil
      rw [hnil] at hfacts
      simp at hfacts
    have hlen : (shuffleTail rand 1 frags).length = frags.length :=
      shuffleTail_length rand 1 frags
    constructor
    · rw [countRole_synthesize frags rand hne, countR_rolesOfParts_foot]
      obtain ⟨f, hf⟩ := assignParts_feet_single (shuffleTail rand 1 frags)
        (by rw [hlen]; omega)
      rw [hf, mirrorSides_singleton]
      rfl
    · rw [countRole_synthesize frags rand hne, countR_rolesOfParts_tail]
      rw [assignParts_tail_none (shuffleTail rand 1 frags) (by rw [hlen]; omega)]

/-- A seven-fragment input (reserve 2) and a four-fragment input
(reserve 1). -/
def frags7 : List FragEntry := List.replicate 7 ⟨0, fragUnit⟩

def frags4 : List FragEntry := List.replicate 4 ⟨0, fragUnit⟩

def randR : ℕ → ℝ := fun _ => 1 / 2

/-- Witness for C4 at concrete 7- and 4-fragment inputs. -/
theorem C4_reserve_roles_witness :
    (countRole .tail (synthesizeCreature frags7 randR).placed = 1 ∧
     countRole .foot (synthesizeCreature frags7 randR).placed = 2) ∧
    (countRole .foot (synthesizeCreature frags4 randR).placed = 2 ∧
     countRole .tail (synthesizeCreature frags4 randR).placed = 0) :=
  ⟨(C4_reserve_roles frags7 randR).2.1 (by norm_num [frags7]),
   (C4_reserve_roles frags4 randR).2.2 (by norm_num [frags4, reservedForTailAndFeet])⟩

/-! ## Claim C1: the torso fragment, its placement, and the contact pass -/

theorem swapIdx_get_zero {α : Type} [Inhabited α] (l : List α) (i j : ℕ)
    (hi : 0 < i) (hj : 0 < j) : (swapIdx l i j).get? 0 = l.get? 0 := by
  cases i with
  | zero => omega
  | succ i2 =>
    cases j with
    | zero => omega
    | succ j2 =>
      cases l with
      | nil => rfl
      | cons x t => rfl

theorem shuffleGo_get_zero {α : Type} [Inhabited α] (rand : ℕ → ℝ) :
    ∀ (m k : ℕ) (l : List α), (shuffleGo rand k m l).get? 0 = l.get? 0 := by
  intro m
  induction m with
  | zero => intro k l; rfl
  | succ m ih =>
    intro k l
    cases m with
    | zero => rfl
    | succ m2 =>
      rw [shuffleGo_step, ih, swapIdx_get_zero _ _ _ (by omega) (by omega)]

theorem shuffleTail_get_zero {α : Type} [Inhabited α] (rand : ℕ → ℝ) (k : ℕ) (l : List α) :
    (shuffleTail rand k l).get? 0 = l.get? 0 := by
  rw [shuffleTail, shuffleGo_get_zero]

theorem assignParts_chest (s : List FragEntry) :
    (assignParts s).chest = (s.get? 0).map (·.fragment) := rfl

theorem exists_suffix_trans {α : Type} {l m n : List α}
    (h2 : ∃ s, n = m ++ s) (h1 : ∃ s, m = l ++ s) : ∃ s, n = l ++ s := by
  obtain ⟨s2, rfl⟩ := h2
  obtain ⟨s1, rfl⟩ := h1
  exact ⟨s1 ++ s2, List.append_assoc _ _ _⟩

theorem placeWingSide_cons (isLeft : Bool) (ws : ℝ) (w : Fragment) (rest : List Fragment)
    (idx : ℕ) (placed : List PlacedPart) :
    ∃ a, placeWingSide isLeft ws (w :: rest) idx placed =
      placeWingSide isLeft ws rest (idx + 1) (placed ++ [a]) := ⟨_, rfl⟩

theorem placeWingSide_append (isLeft : Bool) (ws : ℝ) :
    ∀ (fs : List Fragment) (idx : ℕ) (placed : List PlacedPart),
      ∃ suf, placeWingSide isLeft ws fs idx placed = placed ++ suf := by
  intro fs
  induction fs with
  | nil =>
    intro idx placed
    exact ⟨[], by simp [placeWingSide]⟩
  | cons w rest ih =>
    intro idx placed
    obtain ⟨a, ha⟩ := placeWingSide_cons isLeft ws w rest idx placed
    obtain ⟨suf, hs⟩ := ih (idx + 1) (placed ++ [a])
    refine ⟨a :: suf, ?_⟩
    rw [ha, hs, List.append_assoc]
    rfl

theorem placeFootSide_cons (isLeft : Bool) (by0 : ℝ) (f : Fragment) (rest : List Fragment)
    (idx : ℕ) (placed : List PlacedPart) :
    ∃ a, placeFootSide isLeft by0 (f :: rest) idx placed =
      placeFootSide isLeft by0 rest (idx + 1) (placed ++ [a]) := ⟨_, rfl⟩

theorem placeFootSide_append (isLeft : Bool) (by0 : ℝ) :
    ∀ (fs : List Fragment) (idx : ℕ) (placed : List PlacedPart),
      ∃ suf, placeFootSide isLeft by0 fs idx placed = placed ++ suf := by
  intro fs
  induction fs with
  | nil =>
    intro idx placed
    exact ⟨[], by simp [placeFootSide]⟩
  | cons f rest ih =>
    intro idx placed
    obtain ⟨a, ha⟩ := placeFootSide_cons isLeft by0 f rest idx placed
    obtain ⟨suf, hs⟩ := ih (idx + 1) (placed ++ [a])
    refine ⟨a :: suf, ?_⟩
    rw [ha, hs, List.append_assoc]
    rfl

theorem placeHeadStage_append (parts : PartsB) (ch : ℝ) (placed : List PlacedPart) :
    ∃ suf, placeHeadStage parts ch placed = placed ++ suf := by
  obtain ⟨c0, hd, be, wi, ta, fe⟩ := parts
  cases hd with
  | none => exact ⟨[], (List.append_nil placed).symm⟩
  | some h => exact ⟨_, rfl⟩

theorem placeBellyStage_append (parts : PartsB) (ch : ℝ) (placed : List PlacedPart) :
    ∃ suf, placeBellyStage parts ch placed = placed ++ suf := by
  obtain ⟨c0, hd, be, wi, ta, fe⟩ := parts
  cases be with
  | none => exact ⟨[], (List.append_nil placed).symm⟩
  | some b => exact ⟨_, rfl⟩

theorem placeTailStage_append (parts : PartsB) (ch : ℝ) (placed : List PlacedPart) :
    ∃ suf, placeTailStage parts ch placed = placed ++ suf := by
  obtain ⟨c0, hd, be, wi, ta, fe⟩ := parts
  cases ta with
  | none => exact ⟨[], (List.append_nil placed).symm⟩
  | some t => exact ⟨_, rfl⟩

theorem placeWingsStage_append (parts : PartsB) (placed : List PlacedPart) :
    ∃ suf, placeWingsStage parts placed = placed ++ suf := by
  obtain ⟨c0, hd, be, wi, ta, fe⟩ := parts
  cases wi with
  | nil => exact ⟨[], (List.append_nil placed).symm⟩
  | cons w ws =>
    exact exists_suffix_trans (placeWingSide_append false _ _ 0 _)
      (placeWingSide_append true _ _ 0 placed)

theorem placeFeetStage_append (parts : PartsB) (ch : ℝ) (placed : List PlacedPart) :
    ∃ suf, placeFeetStage parts ch placed = placed ++ suf := by
  obtain ⟨c0, hd, be, wi, ta, fe⟩ := parts
  cases fe with
  | nil => exact ⟨[], (List.append_nil placed).symm⟩
  | cons f fs =>
    exact exists_suffix_trans (placeFootSide_append false _ _ 0 _)
      (placeFootSide_append true _ _ 0 placed)

theorem placeChestStage_fst (parts : PartsB) (cf : Fragment) (h : parts.chest = some cf) :
    (placeChestStage parts).1 = [mkPlaced cf .torso ⟨0, 0, 0⟩ ⟨0, 0, 0⟩] := by
  obtain ⟨c0, hd, be, wi, ta, fe⟩ := parts
  cases c0 with
  | none => simp at h
  | some c =>
    obtain rfl : c = cf := by simpa using h
    rfl

theorem assemblePlaced_head (frags : List FragEntry) (rand : ℕ → ℝ) (c : FragEntry)
    (h : frags.head? = some c) :
    ∃ suf, assemblePlaced frags rand =
      mkPlaced c.fragment .torso ⟨0, 0, 0⟩ ⟨0, 0, 0⟩ :: suf := by
  cases frags with
  | nil => simp at h
  | cons e rest =>
    obtain rfl : e = c := by simpa using h
    have hchest : (assignParts (shuffleTail rand 1 (e :: rest))).chest = some e.fragment := by
      rw [assignParts_chest, shuffleTail_get_zero]
      rfl
    simp only [assemblePlaced]
    rw [placeChestStage_fst _ _ hchest]
    have hfin :
        ∃ suf, placeFeetStage (assignParts (shuffleTail rand 1 (e :: rest)))
            (placeChestStage (assignParts (shuffleTail rand 1 (e :: rest)))).2
            (placeTailStage (assignParts (shuffleTail rand 1 (e :: rest)))
              (placeChestStage (assignParts (shuffleTail rand 1 (e :: rest)))).2
              (placeWingsStage (assignParts (shuffleTail rand 1 (e :: rest)))
                (placeBellyStage (assignParts (shuffleTail rand 1 (e :: rest)))
                  (placeChestStage (assignParts (shuffleTail rand 1 (e :: rest)))).2
                  (placeHeadStage (assignParts (shuffleTail rand 1 (e :: rest)))
                    (placeChestStage (assignParts (shuffleTail rand 1 (e :: rest)))).2
                    [mkPlaced e.fragment .torso ⟨0, 0, 0⟩ ⟨0, 0, 0⟩])))) =
          [mkPlaced e.fragment .torso ⟨0, 0, 0⟩ ⟨0, 0, 0⟩] ++ suf :=
      exists_suffix_trans (placeFeetStage_append _ _ _)
        (exists_suffix_trans (placeTailStage_append _ _ _)
          (exists_suffix_trans (placeWingsStage_append _ _)
            (exists_suffix_trans (placeBellyStage_append _ _ _)
              (placeHeadStage_append _ _ _))))
    obtain ⟨suf, hs⟩ := hfin
    exact ⟨suf, hs⟩

/-- Claim C1 (amended): for every non-empty input, fragment 0 becomes the
torso — assembly places its clone first, at the origin, unrotated, with the
original scale — but the later contact pass may move the torso off the
origin when more than one part is placed (see the counterexample); only
for a single-fragment input is the final creature exactly one torso clone
at the origin. -/
theorem C1_amended (frags : List FragEntry) (rand : ℕ → ℝ) (c : FragEntry)
    (h : frags.head? = some c) :
    (∃ suf, assemblePlaced frags rand =
        mkPlaced c.fragment .torso ⟨0, 0, 0⟩ ⟨0, 0, 0⟩ :: suf) ∧
    (∃ p suf, (synthesizeCreature frags rand).placed = p :: suf ∧
        p.frag = c.fragment ∧ p.role = .torso ∧ p.rot = ⟨0, 0, 0⟩ ∧
        p.scaleV = c.fragment.scale) ∧
    (frags = [c] →
        (synthesizeCreature frags rand).placed =
          [mkPlaced c.fragment .torso ⟨0, 0, 0⟩ ⟨0, 0, 0⟩]) := by
  refine ⟨assemblePlaced_head frags rand c h, ?_, ?_⟩
  · obtain ⟨suf, hs⟩ := assemblePlaced_head frags rand c h
    have hk := synthesize_keys frags rand
    rw [hs] at hk
    cases hp : (synthesizeCreature frags rand).placed with
    | nil => rw [hp] at hk; simp at hk
    | cons p t =>
      rw [hp] at hk
      simp only [List.map_cons] at hk
      injection hk with h1 h2
      simp only [partKey, mkPlaced, Prod.mk.injEq] at h1
      exact ⟨p, t, rfl, h1.1, h1.2.1, h1.2.2.1, h1.2.2.2⟩
  · intro he
    subst he
    rfl

/-- C1 counterexample fixtures: a unit-cube torso fragment centered at the
origin, and a small head fragment whose geometry sits far to the right
(center (10, −0.42, 0), size 0.1). -/
def cxChest : Fragment := ⟨fun _ => ⟨0, 0, 0⟩, fun _ => ⟨1, 1, 1⟩, ⟨1, 1, 1⟩⟩

def cxHead : Fragment := ⟨fun _ => ⟨10, -(21/50), 0⟩, fun _ => ⟨1/10, 1/10, 1/10⟩, ⟨1, 1, 1⟩⟩

def cxFrags : List FragEntry := [⟨0, cxChest⟩, ⟨1, cxHead⟩]

/-- Witness for the amended C1 at a concrete two-fragment input. -/
theorem C1_amended_witness :
    cxFrags.head? = some ⟨0, cxChest⟩ ∧
    (∃ p suf, (synthesizeCreature cxFrags randR).placed = p :: suf ∧
        p.frag = cxChest ∧ p.role = .torso ∧ p.rot = ⟨0, 0, 0⟩ ∧
        p.scaleV = cxChest.scale) :=
  ⟨rfl, (C1_amended cxFrags randR ⟨0, cxChest⟩ rfl).2.1⟩

/-- The torso clone as first placed, the head clone as placed by the head
stage, and the torso after the contact pass has pulled it to the head. -/
def cxTorso0 : PlacedPart := ⟨cxChest, .torso, ⟨0, 0, 0⟩, ⟨0, 0, 0⟩, ⟨1, 1, 1⟩⟩

def cxHead0 : PlacedPart := ⟨cxHead, .head, ⟨0, 21/50, 0⟩, ⟨0, 0, 0⟩, ⟨1, 1, 1⟩⟩

def cxTorso1 : PlacedPart := ⟨cxChest, .torso, ⟨4187/400, 0, 0⟩, ⟨0, 0, 0⟩, ⟨1, 1, 1⟩⟩

theorem cx_torso0_center : (objBox cxTorso0).getCenter = (⟨0, 0, 0⟩ : V3) := by
  rw [objBox_center]
  norm_num [cxTorso0, cxChest, V3_add_mk, V3.mk.injEq]

theorem cx_head0_center : (objBox cxHead0).getCenter = (⟨10, 0, 0⟩ : V3) := by
  rw [objBox_center]
  norm_num [cxHead0, cxHead, V3_add_mk, V3.mk.injEq]

theorem cx_torso1_center : (objBox cxTorso1).getCenter = (⟨4187/400, 0, 0⟩ : V3) := by
  rw [objBox_center]
  norm_num [cxTorso1, cxChest, V3_add_mk, V3.mk.injEq]

theorem cx_torso0_size : (objBox cxTorso0).getSize = (⟨1, 1, 1⟩ : V3) := by
  rw [objBox_size]
  rfl

theorem cx_torso1_size : (objBox cxTorso1).getSize = (⟨1, 1, 1⟩ : V3) := by
  rw [objBox_size]
  rfl

theorem cx_head0_size : (objBox cxHead0).getSize = (⟨1/10, 1/10, 1/10⟩ : V3) := by
  rw [objBox_size]
  rfl

theorem collideScan_singleton_none (o ex : PlacedPart) (d : V3) (pen : ℝ) (ip : V3)
    (h : ¬ checkCollision o ex 0.80) :
    collideScan o [ex] d pen ip = (false, none) := by
  simp only [collideScan, List.foldl_cons, List.foldl_nil]
  rw [if_neg h]

theorem adjustIter_noCollide (ex : List PlacedPart) (ip d : V3) (pen : ℝ) (fuel : ℕ)
    (o : PlacedPart) (h : (collideScan o ex d pen ip).1 = false) :
    adjustIter ex ip d pen (fuel + 1) o = o := by
  simp only [adjustIter, h]
  simp

theorem adjust_noCollide_self (o ex : PlacedPart) (d : V3) (pen : ℝ)
    (h : ¬ checkCollision o ex 0.80) :
    adjustPositionToAvoidCollision o [ex] o.pos d pen = o := by
  simp only [adjustPositionToAvoidCollision]
  have hx : ({ o with pos := o.pos } : PlacedPart) = o := rfl
  rw [hx]
  exact adjustIter_noCollide _ _ _ _ 7 _
    (by rw [collideScan_singleton_none _ _ _ _ _ h])

/-- A head clone anywhere on the y-axis never collides with the torso at
the origin: its box sits at x = 10. -/
theorem cx_head_no_collision (y : ℝ) (s : V3) :
    ¬ checkCollision ⟨cxHead, .head, ⟨0, y, 0⟩, ⟨0, 0, 0⟩, s⟩ cxTorso0 0.80 := by
  intro hcol
  simp only [checkCollision, objBox, BoxR.getCenter_fromCenterAndSize,
    BoxR.getSize_fromCenterAndSize, BoxR.intersects, BoxR.fromCenterAndSize,
    BoxR.getCenter, BoxR.getSize, cxHead, cxTorso0, cxChest,
    V3_scale_mk, V3_add_mk, V3_sub_mk] at hcol
  exact absurd hcol.1 (by norm_num)

theorem cx_contact0 : ¬ checkContact cxTorso0 cxHead0 0.90 := by
  intro hcon
  rw [checkContact, if_neg (by norm_num : ¬(0.90 : ℝ) = 1)] at hcon
  simp only [objBox, BoxR.getCenter_fromCenterAndSize, BoxR.getSize_fromCenterAndSize,
    BoxR.intersects, BoxR.fromCenterAndSize, BoxR.getCenter, BoxR.getSize,
    cxHead0, cxHead, cxTorso0, cxChest, V3_scale_mk, V3_add_mk, V3_sub_mk] at hcon
  exact absurd hcon.2.1 (by norm_num)

theorem cx_contact1 : checkContact cxTorso1 cxHead0 0.90 := by
  rw [checkContact, if_neg (by norm_num : ¬(0.90 : ℝ) = 1)]
  simp only [objBox, BoxR.getCenter_fromCenterAndSize, BoxR.getSize_fromCenterAndSize,
    BoxR.intersects, BoxR.fromCenterAndSize, BoxR.getCenter, BoxR.getSize,
    cxHead0, cxHead, cxTorso1, cxChest, V3_scale_mk, V3_add_mk, V3_sub_mk]
  norm_num

theorem cx_contactH : checkContact cxHead0 cxTorso1 0.90 := by
  rw [checkContact, if_neg (by norm_num : ¬(0.90 : ℝ) = 1)]
  simp only [objBox, BoxR.getCenter_fromCenterAndSize, BoxR.getSize_fromCenterAndSize,
    BoxR.intersects, BoxR.fromCenterAndSize, BoxR.getCenter, BoxR.getSize,
    cxHead0, cxHead, cxTorso1, cxChest, V3_scale_mk, V3_add_mk, V3_sub_mk]
  norm_num

theorem cx_snap : calculateSnapPosition cxTorso0 cxHead0 ⟨1, 0, 0⟩ (-0.2) =
    (⟨4187/400, 0, 0⟩ : V3) := by
  have hn : (⟨1, 0, 0⟩ : V3).normalize = ⟨1, 0, 0⟩ := V3.normalize_of_len_one _ len_e1
  simp only [calculateSnapPosition, hn, cx_torso0_center, cx_head0_center,
    cx_torso0_size, cx_head0_size, dirProjection]
  norm_num [cxTorso0, cxChest, V3_add_mk, V3_sub_mk, V3_scale_mk, V3.mk.injEq]

theorem cx_dir : getDirectionToObject cxTorso0 cxHead0 = (⟨1, 0, 0⟩ : V3) := by
  rw [getDirectionToObject, cx_head0_center, cx_torso0_center]
  have hsub : ((⟨10, 0, 0⟩ : V3) - ⟨0, 0, 0⟩) = (⟨10, 0, 0⟩ : V3) := by
    norm_num [V3_sub_mk, V3.mk.injEq]
  rw [hsub, V3.normalize_eq_scale]
  have hlen : (⟨10, 0, 0⟩ : V3).len = 10 := by
    rw [V3.len, show ((10 : ℝ) ^ 2 + 0 ^ 2 + 0 ^ 2) = 10 ^ 2 by norm_num,
      Real.sqrt_sq (by norm_num : (0:ℝ) ≤ 10)]
  rw [hlen, if_neg (by norm_num : ¬(10 : ℝ) = 0)]
  norm_num [V3_scale_mk, V3.mk.injEq]

theorem contactLoop_succ (nearest : PlacedPart) (d : V3) (attempt fuel : ℕ) (o : PlacedPart) :
    contactLoop nearest d attempt (fuel + 1) o =
      (if checkContact { o with pos := calculateSnapPosition o nearest d (-0.2) } nearest 0.90
       then { o with pos := calculateSnapPosition o nearest d (-0.2) }
       else contactLoop nearest d (attempt + 1) fuel
         { o with pos := calculateSnapPosition o nearest d (-0.2) +
             V3.scale (0.03 * ((attempt : ℝ) + 1)) d }) := rfl

theorem contactPass1_zero (i : ℕ) (l : List PlacedPart) : contactPass1 i 0 l = l := rfl

theorem contactPass1_succ (i fuel : ℕ) (l : List PlacedPart) :
    contactPass1 i (fuel + 1) l =
      contactPass1 (i + 1) fuel (ensureContactAt l i (othersExcept l i)) := rfl

theorem sideReinforce_zero (idxs : List ℕ) (k : ℕ) (l : List PlacedPart) :
    sideReinforce idxs k 0 l = l := rfl

theorem sideReinforce_succ (idxs : List ℕ) (k fuel : ℕ) (l : List PlacedPart) :
    sideReinforce idxs k (fuel + 1) l = sideReinforce idxs (k + 1) fuel
      (ensureContactAt l (idxs.getD k 0)
        ((idxs.take k).map (fun j => l.getD j default))) := rfl

theorem cx_loop : contactLoop cxHead0 ⟨1, 0, 0⟩ 0 15 cxTorso0 = cxTorso1 := by
  rw [show (15 : ℕ) = 14 + 1 from rfl, contactLoop_succ, cx_snap]
  rw [show ({ cxTorso0 with pos := (⟨4187/400, 0, 0⟩ : V3) } : PlacedPart) = cxTorso1 from rfl]
  rw [if_pos cx_contact1]

theorem cx_ensure0 : ensureContact cxTorso0 [cxHead0] = cxTorso1 := by
  simp only [ensureContact]
  rw [if_neg (by simpa using cx_contact0 :
    ¬∃ o ∈ [cxHead0], checkContact cxTorso0 o 0.90)]
  have hnear : nearestOther cxTorso0 [cxHead0] = some cxHead0 := by
    simp [nearestOther]
  rw [hnear]
  show contactLoop cxHead0 (getDirectionToObject cxTorso0 cxHead0) 0 15 cxTorso0 = cxTorso1
  rw [cx_dir, cx_loop]

theorem cx_ensureH : ensureContact cxHead0 [cxTorso1] = cxHead0 := by
  simp only [ensureContact]
  rw [if_pos (⟨cxTorso1, by simp, cx_contactH⟩ :
    ∃ o ∈ [cxTorso1], checkContact cxHead0 o 0.90)]

theorem cx_pass1 : contactPass1 0 2 [cxTorso0, cxHead0] = [cxTorso1, cxHead0] := by
  rw [show (2 : ℕ) = 1 + 1 from rfl, contactPass1_succ]
  rw [show othersExcept [cxTorso0, cxHead0] 0 = [cxHead0] from rfl]
  have h0 : ensureContactAt [cxTorso0, cxHead0] 0 [cxHead0] = [cxTorso1, cxHead0] := by
    simp only [ensureContactAt,
      show ([cxTorso0, cxHead0].get? 0) = some cxTorso0 from rfl]
    rw [cx_ensure0]
    rfl
  rw [h0, contactPass1_succ]
  rw [show othersExcept [cxTorso1, cxHead0] 1 = [cxTorso1] from rfl]
  have h1 : ensureContactAt [cxTorso1, cxHead0] 1 [cxTorso1] = [cxTorso1, cxHead0] := by
    simp only [ensureContactAt,
      show ([cxTorso1, cxHead0].get? 1) = some cxHead0 from rfl]
    rw [cx_ensureH]
    rfl
  rw [h1, contactPass1_zero]

theorem cx_ensAt1 : ensureContactAt [cxTorso1, cxHead0] 1 [cxTorso1] = [cxTorso1, cxHead0] := by
  simp only [ensureContactAt,
    show ([cxTorso1, cxHead0].get? 1) = some cxHead0 from rfl]
  rw [cx_ensureH]
  rfl

theorem cx_wingT : isWingLike cxTorso1 := by
  simp only [isWingLike]
  rw [cx_torso1_center]
  refine ⟨?_, ?_⟩
  · rw [show ((⟨4187/400, 0, 0⟩ : V3)).x = 4187/400 from rfl,
      abs_of_nonneg (by norm_num : (0:ℝ) ≤ 4187/400)]
    norm_num
  · rw [show ((⟨4187/400, 0, 0⟩ : V3)).y = 0 from rfl, abs_zero]
    norm_num

theorem cx_wingH : isWingLike cxHead0 := by
  simp only [isWingLike]
  rw [cx_head0_center]
  refine ⟨?_, ?_⟩
  · rw [show ((⟨10, 0, 0⟩ : V3)).x = 10 from rfl,
      abs_of_nonneg (by norm_num : (0:ℝ) ≤ 10)]
    norm_num
  · rw [show ((⟨10, 0, 0⟩ : V3)).y = 0 from rfl, abs_zero]
    norm_num

theorem cx_leftT : ¬ isLeftSide cxTorso1 := by
  simp only [isLeftSide]
  rw [cx_torso1_center]
  norm_num

theorem cx_leftH : ¬ isLeftSide cxHead0 := by
  simp only [isLeftSide]
  rw [cx_head0_center]
  norm_num

theorem cx_footT : ¬ isFootLike cxTorso1 := by
  simp only [isFootLike]
  rw [cx_torso1_center]
  intro h
  exact absurd h.2 (by norm_num)

theorem cx_footH : ¬ isFootLike cxHead0 := by
  simp only [isFootLike]
  rw [cx_head0_center]
  intro h
  exact absurd h.2 (by norm_num)

theorem cx_wing_pass : reinforceGroups isWingLike [cxTorso1, cxHead0] = [cxTorso1, cxHead0] := by
  have hd1 : decide (isWingLike cxTorso1) = true := decide_eq_true cx_wingT
  have hd2 : decide (isWingLike cxHead0) = true := decide_eq_true cx_wingH
  have hdl1 : decide (isLeftSide cxTorso1) = false := decide_eq_false cx_leftT
  have hdl2 : decide (isLeftSide cxHead0) = false := decide_eq_false cx_leftH
  have hleft : (List.filter (fun p => decide (isLeftSide p.2))
      ([(0, cxTorso1), (1, cxHead0)] : List (ℕ × PlacedPart))).map Prod.fst = ([] : List ℕ) := by
    simp [hdl1, hdl2]
  have hright : (List.filter (fun p => !decide (isLeftSide p.2))
      ([(0, cxTorso1), (1, cxHead0)] : List (ℕ × PlacedPart))).map Prod.fst = ([0, 1] : List ℕ) := by
    simp [hdl1, hdl2]
  simp only [reinforceGroups,
    show ([cxTorso1, cxHead0] : List PlacedPart).enum = [(0, cxTorso1), (1, cxHead0)] from rfl]
  rw [show List.filter (fun p => decide (isWingLike p.2))
      ([(0, cxTorso1), (1, cxHead0)] : List (ℕ × PlacedPart)) =
      [(0, cxTorso1), (1, cxHead0)] from by simp [hd1, hd2]]
  rw [hleft, hright]
  rw [if_neg (show ¬1 < ([] : List ℕ).length by simp)]
  rw [if_pos (show 1 < ([0, 1] : List ℕ).length by simp)]
  rw [show ([0, 1] : List ℕ).length - 1 = 1 from rfl]
  rw [sideReinforce_succ]
  rw [show (([0, 1] : List ℕ).take 1).map
      (fun j => ([cxTorso1, cxHead0] : List PlacedPart).getD j default) = [cxTorso1] from rfl,
    show (([0, 1] : List ℕ).getD 1 0) = 1 from rfl]
  rw [cx_ensAt1, sideReinforce_zero]

theorem cx_foot_pass : reinforceGroups isFootLike [cxTorso1, cxHead0] = [cxTorso1, cxHead0] := by
  have hd1 : decide (isFootLike cxTorso1) = false := decide_eq_false cx_footT
  have hd2 : decide (isFootLike cxHead0) = false := decide_eq_false cx_footH
  simp only [reinforceGroups,
    show ([cxTorso1, cxHead0] : List PlacedPart).enum = [(0, cxTorso1), (1, cxHead0)] from rfl]
  rw [show List.filter (fun p => decide (isFootLike p.2))
      ([(0, cxTorso1), (1, cxHead0)] : List (ℕ × PlacedPart)) =
      ([] : List (ℕ × PlacedPart)) from by simp [hd1, hd2]]
  rw [show (List.filter (fun p => decide (isLeftSide p.2))
      ([] : List (ℕ × PlacedPart))).map Prod.fst = ([] : List ℕ) from rfl]
  rw [show (List.filter (fun p => !decide (isLeftSide p.2))
      ([] : List (ℕ × PlacedPart))).map Prod.fst = ([] : List ℕ) from rfl]
  rw [if_neg (show ¬1 < ([] : List ℕ).length by simp)]
  rw [if_neg (show ¬1 < ([] : List ℕ).length by simp)]

theorem cx_ensureAll : ensureAllFragmentsContact [cxTorso0, cxHead0] = [cxTorso1, cxHead0] := by
  simp only [ensureAllFragmentsContact]
  rw [if_neg (show ¬([cxTorso0, cxHead0] : List PlacedPart).length ≤ 1 by simp)]
  rw [show ([cxTorso0, cxHead0] : List PlacedPart).length = 2 from rfl]
  rw [cx_pass1, cx_wing_pass, cx_foot_pass]

theorem cx_bbChest : getBoundingBox cxChest 0.80 = (⟨4/5, 4/5, 4/5⟩, (⟨0, 0, 0⟩ : V3)) := by
  simp only [getBoundingBox]
  rw [if_neg (by norm_num : ¬(0.80 : ℝ) = 1)]
  norm_num [cxChest, V3_scale_mk, Prod.mk.injEq, V3.mk.injEq]

theorem cx_bbHead : getBoundingBox cxHead 0.80 =
    (⟨2/25, 2/25, 2/25⟩, (⟨10, -(21/50), 0⟩ : V3)) := by
  simp only [getBoundingBox]
  rw [if_neg (by norm_num : ¬(0.80 : ℝ) = 1)]
  norm_num [cxHead, V3_scale_mk, Prod.mk.injEq, V3.mk.injEq]

theorem cx_chestStage : placeChestStage ⟨some cxChest, some cxHead, none, [], none, []⟩ =
    ([cxTorso0], (4:ℝ)/5) := by
  simp only [placeChestStage]
  rw [cx_bbChest]
  rfl

theorem cx_headStage : placeHeadStage ⟨some cxChest, some cxHead, none, [], none, []⟩
    ((4:ℝ)/5) [cxTorso0] = [cxTorso0, cxHead0] := by
  simp only [placeHeadStage]
  rw [cx_bbHead]
  rw [show (((⟨2/25, 2/25, 2/25⟩, (⟨10, -(21/50), 0⟩ : V3)) : V3 × V3)).1.y = 2/25 from rfl]
  rw [show (4:ℝ)/5/2 + 2/25/2*0.5 = 21/50 by norm_num]
  rw [show mkPlaced cxHead .head ⟨0, 21/50, 0⟩ ⟨0, 0, 0⟩ = cxHead0 from rfl]
  rw [adjust_noCollide_self cxHead0 cxTorso0 ⟨0, 1, 0⟩ (-0.3)
    (cx_head_no_collision (21/50) ⟨1, 1, 1⟩)]
  rfl

theorem cx_assemble : assemblePlaced cxFrags randR = [cxTorso0, cxHead0] := by
  simp only [cxFrags, assemblePlaced]
  rw [show shuffleTail randR 1 ([⟨0, cxChest⟩, ⟨1, cxHead⟩] : List FragEntry) =
    [⟨0, cxChest⟩, ⟨1, cxHead⟩] from rfl]
  rw [show assignParts ([⟨0, cxChest⟩, ⟨1, cxHead⟩] : List FragEntry) =
    ⟨some cxChest, some cxHead, none, [], none, []⟩ from rfl]
  rw [cx_chestStage]
  rw [show (([cxTorso0], (4:ℝ)/5) : List PlacedPart × ℝ).2 = (4:ℝ)/5 from rfl]
  rw [show (([cxTorso0], (4:ℝ)/5) : List PlacedPart × ℝ).1 = [cxTorso0] from rfl]
  rw [cx_headStage]
  rw [show placeBellyStage ⟨some cxChest, some cxHead, none, [], none, []⟩ ((4:ℝ)/5)
    [cxTorso0, cxHead0] = [cxTorso0, cxHead0] from rfl]
  rw [show placeWingsStage ⟨some cxChest, some cxHead, none, [], none, []⟩
    [cxTorso0, cxHead0] = [cxTorso0, cxHead0] from rfl]
  rw [show placeTailStage ⟨some cxChest, some cxHead, none, [], none, []⟩ ((4:ℝ)/5)
    [cxTorso0, cxHead0] = [cxTorso0, cxHead0] from rfl]
  rw [show placeFeetStage ⟨some cxChest, some cxHead, none, [], none, []⟩ ((4:ℝ)/5)
    [cxTorso0, cxHead0] = [cxTorso0, cxHead0] from rfl]

/-- Counterexample to claim C1 as stated: on a concrete two-fragment input
the creature's torso ends at x = 4187/400 = 10.4675, not at the origin —
the contact pass `ensureAllFragmentsContact` snaps the torso toward the
distant head. -/
theorem C1_counterexample :
    (synthesizeCreature cxFrags randR).placed = [cxTorso1, cxHead0] ∧
    cxTorso1.role = .torso ∧ cxTorso1.pos = ⟨4187/400, 0, 0⟩ ∧
    (⟨4187/400, 0, 0⟩ : V3) ≠ (⟨0, 0, 0⟩ : V3) := by
  refine ⟨?_, rfl, rfl, ?_⟩
  · simp only [synthesizeCreature]
    rw [cx_assemble]
    rw [if_pos (show 1 < ([cxTorso0, cxHead0] : List PlacedPart).length by simp)]
    rw [cx_ensureAll]
  · intro h
    rw [V3.mk.injEq] at h
    exact absurd h.1 (by norm_num)

end

end Warbler
